import Mathlib

/-!
Property store of a drawing node (`JsiDomNodeProps`)

A shallow embedding of `package/cpp/rnskia/dom/base/JsiDomNodeProps.h`: the
per-node property store, its transaction queue and its change tracking;
followed by the parts of `package/cpp/rnskia/dom/nodes/JsiShaderNodes.h` (the
mode conversions of the image shader, the property handles of the gradient
nodes) and of `package/cpp/rnskia/dom/props/BezierProps.h` that the properties
proved below are about.

Conventions of the embedding

* `PropId` is an interned name; two equal texts are the same identifier, so a
  `String` compared by equality stands for it.
* `std::map<PropId, std::shared_ptr<JsiValue>>` is an association list with the
  operations the source uses (`at`, `emplace`, in-place `swap` of an entry);
  `std::set<PropId>` is a list with `count`, `emplace`, `erase`, `clear`.
  `emplace` never overwrites an existing key, exactly as in the C++ standard
  library.  Iteration follows insertion order; keys are unique, so the order of
  iteration does not change what a lookup returns afterwards.
* Every entry of `_values` and of `_transactions` owns a `JsiValue` created by
  `std::make_shared` for that entry alone, so entries never alias one another
  and the maps can hold values instead of pointers.
* A C++ exception is an `Except.error`; the store is then left as it was when
  the exception is raised before the first mutation.
* The mutex `_lock` only serialises the two contexts; the embedding is the
  sequential semantics of each operation.
-/

namespace RNSkia

/-- Interned property name. -/
abbrev PropId := String

/-- The static `PropNameSelector = JsiPropId::get("selector")`. -/
def PropNameSelector : PropId := "selector"

/-- The static `PropNameValue = JsiPropId::get("value")`. -/
def PropNameValue : PropId := "value"

/-- Modelled from the spec: the enumeration `PropType` of `JsiValue.h`, the tag
of the tagged union "Undefined, Null, Number, String, Boolean, Array, Object,
OpaqueHandle", with the function tag that `getAsFunction` needs.  The source
names `Number`, `String`, `HostObject`, `Object` and `Array`. -/
inductive PropType where
  | Undefined
  | Null
  | Bool
  | Number
  | String
  | Object
  | HostObject
  | HostFunction
  | Array
  deriving DecidableEq, Repr

/-- Modelled from the spec: an opaque native handle, with the class
`RNSkReadonlyValue` of `RNSkReadonlyValue.h` behind it or not.
`readonlyValue id` is a handle on which
`std::dynamic_pointer_cast<RNSkReadonlyValue>` succeeds (a dynamic value, with
a current-value accessor and listener registration); `other id` is any other
host object. -/
inductive HostObject where
  | readonlyValue (id : Nat)
  | other (id : Nat)
  deriving DecidableEq, Repr

/-- Modelled from the spec: the class `JsiValue` of `JsiValue.h`, the tagged
value a property holds.  A number carries an integer payload (the store only
copies and compares payloads, it never computes with them); a function is named
by an identifier that the runtime interprets. -/
inductive JsiValue where
  | undefined
  | null
  | bool (b : Bool)
  | number (n : Int)
  | string (s : String)
  | object (fields : List (PropId × JsiValue))
  | hostObject (h : HostObject)
  | hostFunction (id : Nat)
  | array (items : List JsiValue)
  deriving Repr

namespace JsiValue

/-- Modelled from the spec: `JsiValue::getType`, the tag of the value. -/
def getType : JsiValue → PropType
  | undefined => PropType.Undefined
  | null => PropType.Null
  | bool _ => PropType.Bool
  | number _ => PropType.Number
  | string _ => PropType.String
  | object _ => PropType.Object
  | hostObject _ => PropType.HostObject
  | hostFunction _ => PropType.HostFunction
  | array _ => PropType.Array

/-- The test `jsi::Value::isUndefined`. -/
def isUndefined : JsiValue → Bool
  | undefined => true
  | _ => false

/-- The test `jsi::Value::isNull`. -/
def isNull : JsiValue → Bool
  | null => true
  | _ => false

/-- Modelled from the spec: `JsiValue::isUndefinedOrNull`. -/
def isUndefinedOrNull (v : JsiValue) : Bool :=
  v.isUndefined || v.isNull

/-- Modelled from the spec: `JsiValue::hasValue`, whether an object value has
the named field. -/
def hasValue : JsiValue → PropId → Bool
  | object fields, name => (fields.lookup name).isSome
  | _, _ => false

end JsiValue

/-- The errors the store can raise. `TypeMismatch` is the `jsi::JSError` of
`tryReadProperty` ("Expected <type>, got <type> for property <name>");
`OutOfRange` is the `std::out_of_range` of `std::map::at`;
`MalformedSelector` stands for the failures of the accessors of `JsiValue.h`
on a selector candidate whose fields have the wrong kind; `NullPointer` marks
the use of a null pointer that a failed `std::dynamic_pointer_cast` returned. -/
inductive Error where
  | TypeMismatch (expected got : PropType) (name : PropId)
  | OutOfRange
  | MalformedSelector
  | NullPointer
  deriving DecidableEq, Repr

namespace JsiValue

/-- Modelled from the spec: `JsiValue::getValue`, the named field of an object
value. -/
def getValue : JsiValue → PropId → Except Error JsiValue
  | object fields, name =>
    match fields.lookup name with
    | some v => Except.ok v
    | none => Except.error Error.OutOfRange
  | _, _ => Except.error Error.MalformedSelector

/-- Modelled from the spec: `JsiValue::getAsHostObject`. -/
def getAsHostObject : JsiValue → Except Error HostObject
  | hostObject h => Except.ok h
  | _ => Except.error Error.MalformedSelector

/-- Modelled from the spec: `JsiValue::getAsFunction`; the result is the
identifier of the function. -/
def getAsFunction : JsiValue → Except Error Nat
  | hostFunction f => Except.ok f
  | _ => Except.error Error.MalformedSelector

end JsiValue

/-- The result of `std::dynamic_pointer_cast<RNSkReadonlyValue>` on a host
object: the dynamic value's identifier, or `none` for the null pointer. -/
def HostObject.asReadonlyValue : HostObject → Option Nat
  | HostObject.readonlyValue id => some id
  | HostObject.other _ => none

/-- Modelled from the spec: the part of the scripting runtime the store reads.
`getCurrent d` is the current snapshot of the dynamic value `d`
(`RNSkReadonlyValue::getCurrent`), `call f x` the result of invoking the
function `f` with the single argument `x`. -/
structure Runtime where
  getCurrent : Nat → JsiValue
  call : Nat → JsiValue → JsiValue

/-- The callback a resolve hands to `RNSkReadonlyValue::addListener`, with what
it captured.  `animated` is the listener of lines 156-165, `selector` the one
of lines 178-187.  The cancellation function that `addListener` returns is
identified with the listener it cancels. -/
inductive Listener where
  | animated (name : PropId) (animatedValue : Nat)
  | selector (name : PropId) (selector : Nat) (value : Nat)
  deriving DecidableEq, Repr

/-! ## `std::map` and `std::set` -/

/-- The keys of a map. -/
def mapKeys (m : List (PropId × JsiValue)) : List PropId :=
  m.map Prod.fst

/-- The lookup `std::map::at`; `none` is the `std::out_of_range` exception. -/
def mapAt (m : List (PropId × JsiValue)) (k : PropId) : Option JsiValue :=
  m.lookup k

/-- The insertion `std::map::emplace`: nothing happens when the key is already
present. -/
def mapEmplace (m : List (PropId × JsiValue)) (k : PropId) (v : JsiValue) :
    List (PropId × JsiValue) :=
  if (m.lookup k).isSome then m else m ++ [(k, v)]

/-- The effect of `m.at(k)->swap(v)` on the map: the entry of `k` now holds the
contents `v`. -/
def mapSwap (m : List (PropId × JsiValue)) (k : PropId) (v : JsiValue) :
    List (PropId × JsiValue) :=
  m.map fun e => if e.1 = k then (e.1, v) else e

/-- The count `std::set::count`. -/
def setCount (s : List PropId) (k : PropId) : Nat :=
  if k ∈ s then 1 else 0

/-- The insertion `std::set::emplace`. -/
def setEmplace (s : List PropId) (k : PropId) : List PropId :=
  if k ∈ s then s else s ++ [k]

/-- The removal `std::set::erase`. -/
def setErase (s : List PropId) (k : PropId) : List PropId :=
  s.filter fun x => x ≠ k

/-- The range of `size_t`, the type of the change counter, on a 64-bit
target. -/
def SIZE_RANGE : Nat := 2 ^ 64

/-! ## The store -/

/-- The class `JsiDomNodeProps`. -/
structure JsiDomNodeProps where
  _values : List (PropId × JsiValue)
  _props : List (PropId × JsiValue)
  _unsubscriptions : List Listener
  _propChanges : Nat
  _changedPropNames : List PropId
  _propsWithValues : List PropId
  _transactions : List (PropId × JsiValue)

namespace JsiDomNodeProps

/-- The constructor: the store keeps the authored property object, everything
else starts empty. -/
def new (props : List (PropId × JsiValue)) : JsiDomNodeProps :=
  { _values := []
    _props := props
    _unsubscriptions := []
    _propChanges := 0
    _changedPropNames := []
    _propsWithValues := []
    _transactions := [] }

/-- The read `_props.getProperty(runtime, name)` of the authored object: a
missing property reads as undefined. -/
def getProperty (self : JsiDomNodeProps) (name : PropId) : JsiValue :=
  match self._props.lookup name with
  | some v => v
  | none => JsiValue.undefined

/-- The method `unsubscribe`: every cancellation function is invoked, in order,
and the list is cleared.  The first component lists the invoked ones. -/
def unsubscribe (self : JsiDomNodeProps) : List Listener × JsiDomNodeProps :=
  (self._unsubscriptions, { self with _unsubscriptions := [] })

/-- The method `isAnimatedValue`. -/
def isAnimatedValue (value : JsiValue) : Bool :=
  match value with
  | JsiValue.hostObject h => h.asReadonlyValue.isSome
  | _ => false

/-- The method `getAnimatedValue`; `none` is the null pointer. -/
def getAnimatedValue (value : JsiValue) : Option Nat :=
  match value with
  | JsiValue.hostObject h => h.asReadonlyValue
  | _ => none

/-- The method `isSelector`. -/
def isSelector (value : JsiValue) : Bool :=
  if value.getType = PropType.Object then
    if value.hasValue PropNameSelector && value.hasValue PropNameValue then
      true
    else
      false
  else
    false

/-- The method `getHasPropChanges()`. -/
def getHasPropChanges (self : JsiDomNodeProps) : Bool :=
  decide (self._propChanges > 0)

/-- The method `getHasPropChanges(PropId name)`. -/
def getHasPropChangesOf (self : JsiDomNodeProps) (name : PropId) : Bool :=
  decide (setCount self._changedPropNames name > 0)

/-- The method `resetPropChanges`. -/
def resetPropChanges (self : JsiDomNodeProps) : JsiDomNodeProps :=
  { self with _propChanges := 0, _changedPropNames := [] }

/-- The method `hasPropValue`. -/
def hasPropValue (self : JsiDomNodeProps) (name : PropId) : Bool :=
  decide (name ∈ self._propsWithValues)

/-- The method `getPropValue`, `_values.at(name)`. -/
def getPropValue (self : JsiDomNodeProps) (name : PropId) : Except Error JsiValue :=
  match mapAt self._values name with
  | some v => Except.ok v
  | none => Except.error Error.OutOfRange

/-- The method `requestPropChange`. -/
def requestPropChange (self : JsiDomNodeProps) (name : PropId) : JsiDomNodeProps :=
  { self with
    _propChanges := (self._propChanges + 1) % SIZE_RANGE
    _changedPropNames := setEmplace self._changedPropNames name }

/-- The method `addPropValueTransaction`. -/
def addPropValueTransaction (self : JsiDomNodeProps) (name : PropId) (value : JsiValue) :
    JsiDomNodeProps :=
  if self.hasPropValue name then
    requestPropChange
      { self with _transactions := mapEmplace self._transactions name value } name
  else
    self

/-- The method `initializePropValue`. -/
def initializePropValue (self : JsiDomNodeProps) (name : PropId) (value : JsiValue) :
    JsiDomNodeProps :=
  let newProp := value
  let self1 := { self with _values := mapEmplace self._values name newProp }
  let self2 :=
    if !newProp.isUndefinedOrNull then
      { self1 with _propsWithValues := setEmplace self1._propsWithValues name }
    else
      self1
  requestPropChange self2 name

/-- One round of the loop of `commitTransactions`, for the entry `el`. -/
def commitEntry (self : JsiDomNodeProps) (el : PropId × JsiValue) :
    Except Error JsiDomNodeProps :=
  let propValueSource := el.2
  match self.getPropValue el.1 with
  | Except.error e => Except.error e
  | Except.ok _ =>
    -- Swap inner values: the destination now holds the staged contents
    let propValueDest := propValueSource
    let self1 := { self with _values := mapSwap self._values el.1 propValueSource }
    -- Update with values set
    if !propValueDest.isUndefinedOrNull then
      Except.ok { self1 with _propsWithValues := setEmplace self1._propsWithValues el.1 }
    else if setCount self1._propsWithValues el.1 > 0 then
      Except.ok { self1 with _propsWithValues := setErase self1._propsWithValues el.1 }
    else
      Except.ok self1

/-- The loop of `commitTransactions` over the pending entries. -/
def commitLoop : List (PropId × JsiValue) → JsiDomNodeProps → Except Error JsiDomNodeProps
  | [], self => Except.ok self
  | el :: rest, self =>
    match commitEntry self el with
    | Except.error e => Except.error e
    | Except.ok self1 => commitLoop rest self1

/-- The method `commitTransactions`. -/
def commitTransactions (self : JsiDomNodeProps) : Except Error JsiDomNodeProps :=
  match commitLoop self._transactions self with
  | Except.error e => Except.error e
  | Except.ok self1 => Except.ok { self1 with _transactions := [] }

/-- The method `tryReadProperty`.  The result is the value the returned pointer
`_values.at(name)` refers to at the time of the return, with the store as the
call leaves it. -/
def tryReadProperty (runtime : Runtime) (self : JsiDomNodeProps) (name : PropId)
    (type : PropType) : Except Error (JsiValue × JsiDomNodeProps) :=
  -- get the prop value from the props object
  let jsPropValue := self.getProperty name
  -- Check undefined or null
  let isUndefinedOrNull := jsPropValue.isUndefined || jsPropValue.isNull
  let nativePropValue := jsPropValue
  if isAnimatedValue nativePropValue then
    match getAnimatedValue nativePropValue with
    | none => Except.error Error.NullPointer
    | some animatedValue =>
      -- Add initial resolved value to props
      let self1 := self.initializePropValue name (runtime.getCurrent animatedValue)
      -- Add subscription to animated value
      let unsubscribe := Listener.animated name animatedValue
      let self2 := { self1 with _unsubscriptions := self1._unsubscriptions ++ [unsubscribe] }
      match self2.getPropValue name with
      | Except.error e => Except.error e
      | Except.ok v => Except.ok (v, self2)
  else if isSelector nativePropValue then
    match nativePropValue.getValue PropNameValue with
    | Except.error e => Except.error e
    | Except.ok valueField =>
    match valueField.getAsHostObject with
    | Except.error e => Except.error e
    | Except.ok valueHandle =>
    match nativePropValue.getValue PropNameSelector with
    | Except.error e => Except.error e
    | Except.ok selectorField =>
    match selectorField.getAsFunction with
    | Except.error e => Except.error e
    | Except.ok selector =>
    match valueHandle.asReadonlyValue with
    | none => Except.error Error.NullPointer
    | some value =>
      -- Add initial resolved value to props
      let current := runtime.getCurrent value
      let self1 := self.initializePropValue name (runtime.call selector current)
      -- Add subscription to animated value in selector
      let unsubscribe := Listener.selector name selector value
      let self2 := { self1 with _unsubscriptions := self1._unsubscriptions ++ [unsubscribe] }
      match self2.getPropValue name with
      | Except.error e => Except.error e
      | Except.ok v => Except.ok (v, self2)
  else
    -- Regular value, just ensure that the type is correct:
    if nativePropValue.getType ≠ type && !isUndefinedOrNull then
      Except.error (Error.TypeMismatch type nativePropValue.getType name)
    else
      -- Set prop
      let self1 := self.initializePropValue name jsPropValue
      match self1.getPropValue name with
      | Except.error e => Except.error e
      | Except.ok v => Except.ok (v, self1)

/-- The method `tryReadNumericProperty`. -/
def tryReadNumericProperty (runtime : Runtime) (self : JsiDomNodeProps) (name : PropId) :
    Except Error (JsiValue × JsiDomNodeProps) :=
  self.tryReadProperty runtime name PropType.Number

/-- The method `tryReadStringProperty`. -/
def tryReadStringProperty (runtime : Runtime) (self : JsiDomNodeProps) (name : PropId) :
    Except Error (JsiValue × JsiDomNodeProps) :=
  self.tryReadProperty runtime name PropType.String

/-- The method `tryReadHostObjectProperty`. -/
def tryReadHostObjectProperty (runtime : Runtime) (self : JsiDomNodeProps) (name : PropId) :
    Except Error (JsiValue × JsiDomNodeProps) :=
  self.tryReadProperty runtime name PropType.HostObject

/-- The method `tryReadObjectProperty`. -/
def tryReadObjectProperty (runtime : Runtime) (self : JsiDomNodeProps) (name : PropId) :
    Except Error (JsiValue × JsiDomNodeProps) :=
  self.tryReadProperty runtime name PropType.Object

/-- The method `tryReadArrayProperty`. -/
def tryReadArrayProperty (runtime : Runtime) (self : JsiDomNodeProps) (name : PropId) :
    Except Error (JsiValue × JsiDomNodeProps) :=
  self.tryReadProperty runtime name PropType.Array

end JsiDomNodeProps

/-- The body of a listener when the dynamic value notifies.  `weakSelf` is the
result of `weakSelf.lock()`: `none` once the store is destroyed, and then the
callback does nothing. -/
def Listener.invoke (runtime : Runtime) (weakSelf : Option JsiDomNodeProps) :
    Listener → Option JsiDomNodeProps
  | Listener.animated name animatedValue =>
    match weakSelf with
    | some self =>
      some (self.addPropValueTransaction name (runtime.getCurrent animatedValue))
    | none => none
  | Listener.selector name selectorFn readonlyValue =>
    match weakSelf with
    | some self =>
      let current := runtime.getCurrent readonlyValue
      some (self.addPropValueTransaction name (runtime.call selectorFn current))
    | none => none

/-- A notification delivered to a live store: the listener `l` runs against
`self`. -/
def JsiDomNodeProps.notify (runtime : Runtime) (self : JsiDomNodeProps) (l : Listener) :
    JsiDomNodeProps :=
  match l.invoke runtime (some self) with
  | some self1 => self1
  | none => self

/-- The states of a store built over the property object `props` that the
producer and the consumer can reach: resolving any name at any declared type,
a notification of any listener the store has installed (the runtime, that is
the snapshots and the results of the functions, is arbitrary at each step),
committing, and resetting the change tracking.  A resolve that raises does so
before its first write to the store, so it adds no state. -/
inductive Reachable (props : List (PropId × JsiValue)) : JsiDomNodeProps → Prop where
  | init : Reachable props (JsiDomNodeProps.new props)
  | read {self self1 : JsiDomNodeProps} (runtime : Runtime) (name : PropId) (type : PropType)
      (v : JsiValue) :
      Reachable props self →
      self.tryReadProperty runtime name type = Except.ok (v, self1) →
      Reachable props self1
  | notify {self : JsiDomNodeProps} (runtime : Runtime) (l : Listener) :
      Reachable props self →
      l ∈ self._unsubscriptions →
      Reachable props (self.notify runtime l)
  | commit {self self1 : JsiDomNodeProps} :
      Reachable props self →
      self.commitTransactions = Except.ok self1 →
      Reachable props self1
  | reset {self : JsiDomNodeProps} :
      Reachable props self →
      Reachable props (self.resetPropChanges)

namespace JsiDomNodeProps

/-! ## Auxiliary notions -/

/-- Every name with a value and every name with a pending transaction has an
entry in the authoritative map `_values`. -/
structure Resolved (store : JsiDomNodeProps) : Prop where
  withValues : ∀ n, n ∈ store._propsWithValues → n ∈ mapKeys store._values
  pending : ∀ n, n ∈ mapKeys store._transactions → n ∈ mapKeys store._values

/-- The store after one round of the commit loop, when the entry's name has a
value to swap with. -/
def afterEntry (self : JsiDomNodeProps) (el : PropId × JsiValue) : JsiDomNodeProps :=
  { self with
    _values := mapSwap self._values el.1 el.2
    _propsWithValues :=
      if !el.2.isUndefinedOrNull then setEmplace self._propsWithValues el.1
      else if setCount self._propsWithValues el.1 > 0 then setErase self._propsWithValues el.1
      else self._propsWithValues }

/-- Staging a sequence of transactions, in order: what a run of listener
notifications does to a live store between two commits. -/
def stageAll (ops : List (PropId × JsiValue)) (self : JsiDomNodeProps) : JsiDomNodeProps :=
  ops.foldl (fun s op => s.addPropValueTransaction op.1 op.2) self

end JsiDomNodeProps

/-! ## Sample data

A property object with a property `r` bound to the dynamic value `0`, a plain
numeric property `w` and a property `s` bound to a selector expression over the
dynamic value `1`; runtimes in which every dynamic value has the same snapshot;
and the stores the scenarios of the specification go through. -/

/-- The authored property object of the samples. -/
def sampleProps : List (PropId × JsiValue) :=
  [("r", JsiValue.hostObject (HostObject.readonlyValue 0)),
   ("w", JsiValue.number 1),
   ("s", JsiValue.object
      [("selector", JsiValue.hostFunction 0),
       ("value", JsiValue.hostObject (HostObject.readonlyValue 1))])]

/-- The function "swap x/y" on objects with exactly the fields `x` and `y`, in
that order; any other argument gives null. -/
def swapXY : JsiValue → JsiValue
  | JsiValue.object [("x", a), ("y", b)] => JsiValue.object [("x", b), ("y", a)]
  | _ => JsiValue.null

/-- A runtime in which every dynamic value has the snapshot `snapshot` and
every function is "swap x/y". -/
def sampleRuntime (snapshot : JsiValue) : Runtime :=
  { getCurrent := fun _ => snapshot
    call := fun _ x => swapXY x }

/-- The point `{x, y}` as a value. -/
def pointXY (x y : Int) : JsiValue :=
  JsiValue.object [("x", JsiValue.number x), ("y", JsiValue.number y)]

/-- The sample store after `r` was resolved while its dynamic value read 5. -/
def storeSeeded : JsiDomNodeProps :=
  { _values := [("r", JsiValue.number 5)]
    _props := sampleProps
    _unsubscriptions := [Listener.animated "r" 0]
    _propChanges := 1
    _changedPropNames := ["r"]
    _propsWithValues := ["r"]
    _transactions := [] }

/-- The store `storeSeeded` after the dynamic value notified with snapshot 7. -/
def storeStaged : JsiDomNodeProps :=
  { storeSeeded with
    _propChanges := 2
    _transactions := [("r", JsiValue.number 7)] }

/-- The store `storeStaged` after a second notification, with snapshot 9, and a
commit. -/
def storeCommitted : JsiDomNodeProps :=
  { storeSeeded with
    _values := [("r", JsiValue.number 7)]
    _propChanges := 3 }

/-- The store `storeSeeded` after `r` was resolved a second time. -/
def storeResolvedTwice : JsiDomNodeProps :=
  { storeSeeded with
    _unsubscriptions := [Listener.animated "r" 0, Listener.animated "r" 0]
    _propChanges := 2 }

/-- The sample store after `s` was resolved while the selector gave null. -/
def storeNullSeeded : JsiDomNodeProps :=
  { _values := [("s", JsiValue.null)]
    _props := sampleProps
    _unsubscriptions := [Listener.selector "s" 0 1]
    _propChanges := 1
    _changedPropNames := ["s"]
    _propsWithValues := []
    _transactions := [] }

/-- The sample store after `s` was resolved while its dynamic value read
`{x:1, y:2}`. -/
def storeSelectorSeeded : JsiDomNodeProps :=
  { storeNullSeeded with
    _values := [("s", pointXY 2 1)]
    _propsWithValues := ["s"] }

/-- The store `storeSelectorSeeded` after `s` was resolved a second time. -/
def storeSelectorResolvedTwice : JsiDomNodeProps :=
  { storeSelectorSeeded with
    _unsubscriptions := [Listener.selector "s" 0 1, Listener.selector "s" 0 1]
    _propChanges := 2 }

namespace JsiDomNodeProps

/-- The names with values are exactly the names whose entry in `_values` is
neither undefined nor null. -/
def ValuesPresent (store : JsiDomNodeProps) : Prop :=
  ∀ n, n ∈ store._propsWithValues ↔
    ∃ v, mapAt store._values n = some v ∧ v.isUndefinedOrNull = false

end JsiDomNodeProps

/-- The reachable states in which no name is resolved twice: as `Reachable`,
but `tryReadProperty` is only called for a name that has no entry in `_values`
yet, which is what `initializePropValue` assumes ("Prop was not previously
set"). -/
inductive ReachableOnce (props : List (PropId × JsiValue)) : JsiDomNodeProps → Prop where
  | init : ReachableOnce props (JsiDomNodeProps.new props)
  | read {self self1 : JsiDomNodeProps} (runtime : Runtime) (name : PropId) (type : PropType)
      (v : JsiValue) :
      ReachableOnce props self →
      name ∉ mapKeys self._values →
      self.tryReadProperty runtime name type = Except.ok (v, self1) →
      ReachableOnce props self1
  | notify {self : JsiDomNodeProps} (runtime : Runtime) (l : Listener) :
      ReachableOnce props self →
      l ∈ self._unsubscriptions →
      ReachableOnce props (self.notify runtime l)
  | commit {self self1 : JsiDomNodeProps} :
      ReachableOnce props self →
      self.commitTransactions = Except.ok self1 →
      ReachableOnce props self1
  | reset {self : JsiDomNodeProps} :
      ReachableOnce props self →
      ReachableOnce props (self.resetPropChanges)

/-- The sample store after `r` was resolved while its dynamic value read
null. -/
def storeDynamicNull : JsiDomNodeProps :=
  { storeSeeded with
    _values := [("r", JsiValue.null)]
    _propsWithValues := [] }

/-- The store `storeDynamicNull` after `r` was resolved a second time, the
dynamic value now reading 5. -/
def storeDynamicNullResolvedTwice : JsiDomNodeProps :=
  { storeDynamicNull with
    _unsubscriptions := [Listener.animated "r" 0, Listener.animated "r" 0]
    _propChanges := 2
    _propsWithValues := ["r"] }

namespace JsiDomNodeProps

/-- The destructor `~JsiDomNodeProps`: it calls `unsubscribe`; the result lists
the cancellation functions it invoked. -/
def destructor (self : JsiDomNodeProps) : List Listener :=
  self.unsubscribe.1

/-- A number of calls of `unsubscribe` in a row: the cancellation functions
invoked, in order, and the store the last call leaves. -/
def unsubscribeTimes : Nat → JsiDomNodeProps → List Listener × JsiDomNodeProps
  | 0, self => ([], self)
  | k + 1, self =>
    let first := self.unsubscribe
    let others := unsubscribeTimes k first.2
    (first.1 ++ others.1, others.2)

/-- A sequence of calls of `tryReadProperty`, each with its runtime, name and
declared type; a call that raises leaves the store as it was and the sequence
goes on. -/
def resolveAll : List (Runtime × PropId × PropType) → JsiDomNodeProps → JsiDomNodeProps
  | [], self => self
  | (runtime, name, type) :: rest, self =>
    match self.tryReadProperty runtime name type with
    | Except.ok (_, self1) => resolveAll rest self1
    | Except.error _ => resolveAll rest self

/-- The cancellation functions that the calls of `addListener` return while
`tryReadProperty` resolves `name` against the source value `source`: one in the
dynamic-value branch (line 156), one in the selector branch once the accessors
have returned (line 178), none for a plain value. -/
def subscriptionsCreated (source : JsiValue) (name : PropId) : List Listener :=
  if isAnimatedValue source then
    match getAnimatedValue source with
    | some animatedValue => [Listener.animated name animatedValue]
    | none => []
  else if isSelector source then
    match source.getValue PropNameValue with
    | Except.error _ => []
    | Except.ok valueField =>
    match valueField.getAsHostObject with
    | Except.error _ => []
    | Except.ok valueHandle =>
    match source.getValue PropNameSelector with
    | Except.error _ => []
    | Except.ok selectorField =>
    match selectorField.getAsFunction with
    | Except.error _ => []
    | Except.ok selectorFn =>
    match valueHandle.asReadonlyValue with
    | none => []
    | some readonlyValue => [Listener.selector name selectorFn readonlyValue]
  else
    []

/-- The cancellation functions created over a sequence of resolves of a store
built over the property object `props`, in order of creation. -/
def subscriptionsCreatedAll (props : List (PropId × JsiValue)) :
    List (Runtime × PropId × PropType) → List Listener
  | [] => []
  | (_, name, _) :: rest =>
    subscriptionsCreated ((JsiDomNodeProps.new props).getProperty name) name
      ++ subscriptionsCreatedAll props rest

end JsiDomNodeProps

/-- A use of the runtime by a listener: reading the current snapshot of a
dynamic value, or invoking a function on an argument. -/
inductive RuntimeUse where
  | getCurrent (value : Nat)
  | call (function : Nat) (argument : JsiValue)

/-- The uses of the runtime a listener makes when it runs, in order.  Both
callbacks read the snapshot, and the selector callback invokes the selector
function, inside `if (self)` only. -/
def Listener.runtimeUses (runtime : Runtime) (weakSelf : Option JsiDomNodeProps) :
    Listener → List RuntimeUse
  | Listener.animated _ animatedValue =>
    match weakSelf with
    | some _ => [RuntimeUse.getCurrent animatedValue]
    | none => []
  | Listener.selector _ selectorFn readonlyValue =>
    match weakSelf with
    | some _ =>
      [RuntimeUse.getCurrent readonlyValue,
       RuntimeUse.call selectorFn (runtime.getCurrent readonlyValue)]
    | none => []

/-- The three resolves of the sample object, `r`, `w` and `s`, at the types
they hold. -/
def sampleReads : List (Runtime × PropId × PropType) :=
  [(sampleRuntime (JsiValue.number 5), "r", PropType.Number),
   (sampleRuntime (JsiValue.number 5), "w", PropType.Number),
   (sampleRuntime (pointXY 1 2), "s", PropType.Object)]

namespace JsiDomNodeProps

/-- The method `getHasPropChanges(PropId name)` as a call on the store: its
result and the store the call leaves.  The body is the single statement
`return _changedPropNames.count(name) > 0;`, which writes nothing, so the store
is left as it was. -/
def queryPropChanges (self : JsiDomNodeProps) (name : PropId) : Bool × JsiDomNodeProps :=
  (self.getHasPropChangesOf name, self)

end JsiDomNodeProps

/-- A property object whose property `e` is an object with the fields
`selector` and `value` and a third field `extra`. -/
def samplePropsExtra : List (PropId × JsiValue) :=
  [("e", JsiValue.object
      [("selector", JsiValue.hostFunction 0),
       ("value", JsiValue.hostObject (HostObject.readonlyValue 1)),
       ("extra", JsiValue.number 1)])]

/-- The store over `samplePropsExtra` after `e` was resolved while the dynamic
value read `{x:1, y:2}`. -/
def storeExtraSeeded : JsiDomNodeProps :=
  { _values := [("e", pointXY 2 1)]
    _props := samplePropsExtra
    _unsubscriptions := [Listener.selector "e" 0 1]
    _propChanges := 1
    _changedPropNames := ["e"]
    _propsWithValues := ["e"]
    _transactions := [] }

/-! ## Shader nodes (`JsiShaderNodes.h`) -/

/-- The enumeration `SkFilterMode` of the graphics library: `kNearest` and
`kLinear`. -/
inductive SkFilterMode where
  | kNearest
  | kLinear
  deriving DecidableEq, Repr

/-- The enumerator `SkFilterMode::kLast`, declared equal to `kLinear`. -/
def SkFilterMode.kLast : SkFilterMode := SkFilterMode.kLinear

/-- The enumeration `SkMipmapMode` of the graphics library: `kNone`, `kNearest`
and `kLinear`. -/
inductive SkMipmapMode where
  | kNone
  | kNearest
  | kLinear
  deriving DecidableEq, Repr

/-- The enumerator `SkMipmapMode::kLast`, declared equal to `kLinear`. -/
def SkMipmapMode.kLast : SkMipmapMode := SkMipmapMode.kLinear

/-- What a shader node can raise: the two `std::runtime_error` of the image
shader, with the offending text, and the use of a property handle that was
never assigned, with the name of the member. -/
inductive ShaderError where
  | notAFilterMode (value : String)
  | notAMipmapMode (value : String)
  | unassignedHandle (member : String)
  deriving DecidableEq, Repr

namespace JsiImageShaderNode

/-- The method `getFilterModeFromString`. -/
def getFilterModeFromString (value : String) : Except ShaderError SkFilterMode :=
  if value = "last" then
    Except.ok SkFilterMode.kLast
  else if value = "linear" then
    Except.ok SkFilterMode.kLinear
  else if value = "nearest" then
    Except.ok SkFilterMode.kNearest
  else
    Except.error (ShaderError.notAFilterMode value)

/-- The method `getMipmapModeFromString`. -/
def getMipmapModeFromString (value : String) : Except ShaderError SkMipmapMode :=
  if value = "last" then
    Except.ok SkMipmapMode.kLast
  else if value = "last" then
    Except.ok SkMipmapMode.kLast
  else if value = "last" then
    Except.ok SkMipmapMode.kLast
  else if value = "none" then
    Except.ok SkMipmapMode.kNone
  else
    Except.error (ShaderError.notAMipmapMode value)

/-- The sampling options `materialize` builds from the texts of the properties
`fm` and `mm`:
`SkSamplingOptions(getFilterModeFromString(..), getMipmapModeFromString(..))`.
Whichever argument is evaluated first, the construction raises when one of the
two conversions raises. -/
def samplingOptions (fm mm : String) : Except ShaderError (SkFilterMode × SkMipmapMode) :=
  match getFilterModeFromString fm with
  | Except.error e => Except.error e
  | Except.ok filterMode =>
    match getMipmapModeFromString mm with
    | Except.error e => Except.error e
    | Except.ok mipmapMode => Except.ok (filterMode, mipmapMode)

end JsiImageShaderNode

/-- The classes of property descriptors the gradient nodes define. -/
inductive PropClass where
  | NodeProp
  | ColorsProp
  | TileModeProp
  | PointProp
  | TransformsProps
  deriving DecidableEq, Repr

/-- Modelled from the spec: a property descriptor as a container holds it: its
class, the name it reads (none for a descriptor that reads several) and
whether `require()` was called on it. -/
structure PropDescriptor where
  propClass : PropClass
  name : Option PropId
  required : Bool
  deriving DecidableEq, Repr

/-- Modelled from the spec: the class `NodePropsContainer`, the descriptors a
node has defined, in order of definition. -/
structure NodePropsContainer where
  _properties : List PropDescriptor
  deriving DecidableEq, Repr

namespace NodePropsContainer

/-- Modelled from the spec: `NodePropsContainer::defineProperty`; the pointer
it returns is the position of the new descriptor in the container. -/
def defineProperty (container : NodePropsContainer) (propClass : PropClass)
    (name : Option PropId) : Nat × NodePropsContainer :=
  (container._properties.length,
    NodePropsContainer.mk (container._properties ++ [PropDescriptor.mk propClass name false]))

/-- Modelled from the spec: `require()` on the descriptor behind a handle. -/
def require (container : NodePropsContainer) (handle : Nat) : NodePropsContainer :=
  NodePropsContainer.mk
    (container._properties.modify (fun p => PropDescriptor.mk p.propClass p.name true) handle)

end NodePropsContainer

/-- The use `handle->...` of a pointer member of a node: the handle it holds,
or the error for a member that was never assigned. -/
def derefHandle (member : String) : Option Nat → Except ShaderError Nat
  | some handle => Except.ok handle
  | none => Except.error (ShaderError.unassignedHandle member)

/-- The pointer members of the class `JsiBaseGradientNode`; `none` is a member
that was never assigned (the class gives its members no initial value). -/
structure JsiBaseGradientNode where
  _transformsProps : Option Nat
  _colorsProp : Option Nat
  _positions : Option Nat
  _modeProp : Option Nat
  _flagsProp : Option Nat
  deriving DecidableEq, Repr

namespace JsiBaseGradientNode

/-- The members after the constructor. -/
def new : JsiBaseGradientNode :=
  { _transformsProps := none, _colorsProp := none, _positions := none, _modeProp := none,
    _flagsProp := none }

/-- The method `JsiBaseGradientNode::defineProperties`.  The parameter
`baseDefine` is `JsiBaseDomDeclarationNode::defineProperties`, which is not
among the sources; it can reach the container only, not the members of the
classes derived from it. -/
def defineProperties (baseDefine : NodePropsContainer → NodePropsContainer)
    (_self : JsiBaseGradientNode) (container : NodePropsContainer) :
    JsiBaseGradientNode × NodePropsContainer :=
  let c0 := baseDefine container
  let transforms := c0.defineProperty PropClass.TransformsProps none
  let colors := transforms.2.defineProperty PropClass.ColorsProp (some "colors")
  let positions := colors.2.defineProperty PropClass.NodeProp (some "positions")
  let mode := positions.2.defineProperty PropClass.TileModeProp (some "mode")
  let flags := mode.2.defineProperty PropClass.NodeProp (some "flags")
  ({ _transformsProps := some transforms.1
     _colorsProp := some colors.1
     _positions := some positions.1
     _modeProp := some mode.1
     _flagsProp := some flags.1 },
    flags.2.require colors.1)

end JsiBaseGradientNode

/-- The class `JsiLinearGradientNode`. -/
structure JsiLinearGradientNode extends JsiBaseGradientNode where
  _startProp : Option Nat
  _endProp : Option Nat
  deriving DecidableEq, Repr

namespace JsiLinearGradientNode

/-- The members after the constructor. -/
def new : JsiLinearGradientNode :=
  { JsiBaseGradientNode.new with _startProp := none, _endProp := none }

/-- The method `JsiLinearGradientNode::defineProperties`. -/
def defineProperties (baseDefine : NodePropsContainer → NodePropsContainer)
    (self : JsiLinearGradientNode) (container : NodePropsContainer) :
    JsiLinearGradientNode × NodePropsContainer :=
  let base := self.toJsiBaseGradientNode.defineProperties baseDefine container
  let start := base.2.defineProperty PropClass.PointProp (some "start")
  let stop := start.2.defineProperty PropClass.PointProp (some "stop")
  ({ toJsiBaseGradientNode := base.1, _startProp := some start.1, _endProp := some stop.1 },
    (stop.2.require start.1).require stop.1)

/-- The handles `JsiLinearGradientNode::materialize` dereferences, in the order
of the statements, when `isChanged(context)` is `changed`; it raises at the
first member that was never assigned. -/
def materialize (changed : Bool) (self : JsiLinearGradientNode) :
    Except ShaderError (List Nat) :=
  if changed then do
    let colors ← derefHandle "_colorsProp" self._colorsProp
    let start ← derefHandle "_startProp" self._startProp
    let stop ← derefHandle "_endProp" self._endProp
    let positions ← derefHandle "_positions" self._positions
    let mode ← derefHandle "_modeProp" self._modeProp
    let flags ← derefHandle "_flagsProp" self._flagsProp
    let transforms ← derefHandle "_transformsProps" self._transformsProps
    pure [colors, start, stop, positions, mode, flags, transforms]
  else
    pure []

end JsiLinearGradientNode

/-- The class `JsiRadialGradientNode`. -/
structure JsiRadialGradientNode extends JsiBaseGradientNode where
  _centerProp : Option Nat
  _radiusProp : Option Nat
  deriving DecidableEq, Repr

namespace JsiRadialGradientNode

/-- The members after the constructor. -/
def new : JsiRadialGradientNode :=
  { JsiBaseGradientNode.new with _centerProp := none, _radiusProp := none }

/-- The method `JsiRadialGradientNode::defineProperties`: its first statement
calls `JsiBaseDomDeclarationNode::defineProperties`, not
`JsiBaseGradientNode::defineProperties`. -/
def defineProperties (baseDefine : NodePropsContainer → NodePropsContainer)
    (self : JsiRadialGradientNode) (container : NodePropsContainer) :
    JsiRadialGradientNode × NodePropsContainer :=
  let c0 := baseDefine container
  let center := c0.defineProperty PropClass.PointProp (some "c")
  let radius := center.2.defineProperty PropClass.NodeProp (some "r")
  ({ self with _centerProp := some center.1, _radiusProp := some radius.1 },
    (radius.2.require center.1).require radius.1)

/-- The handles `JsiRadialGradientNode::materialize` dereferences, in the order
of the statements, when `isChanged(context)` is `changed`; it raises at the
first member that was never assigned. -/
def materialize (changed : Bool) (self : JsiRadialGradientNode) :
    Except ShaderError (List Nat) :=
  if changed then do
    let colors ← derefHandle "_colorsProp" self._colorsProp
    let center ← derefHandle "_centerProp" self._centerProp
    let radius ← derefHandle "_radiusProp" self._radiusProp
    let positions ← derefHandle "_positions" self._positions
    let mode ← derefHandle "_modeProp" self._modeProp
    let flags ← derefHandle "_flagsProp" self._flagsProp
    let transforms ← derefHandle "_transformsProps" self._transformsProps
    pure [colors, center, radius, positions, mode, flags, transforms]
  else
    pure []

end JsiRadialGradientNode

/-! ## Bezier property (`BezierProps.h`) -/

/-- The type `SkPoint` of the graphics library, with integer coordinates as the
payload of numbers. -/
structure SkPoint where
  fX : Int
  fY : Int
  deriving DecidableEq, Repr

/-- Modelled from the spec: `JsiValue::getAsArray`; it raises when the value is
not an array. -/
def JsiValue.getAsArray : JsiValue → Except Error (List JsiValue)
  | JsiValue.array items => Except.ok items
  | v => Except.error (Error.TypeMismatch PropType.Array v.getType "")

/-- The class `BezierProp`: `_bezierProp` is the value that
`_bezierProp->value()` points to, `_derivedValue` the cached derived value of
the base class `DerivedProp`, none while it was never set. -/
structure BezierProp where
  _bezierProp : JsiValue
  _derivedValue : Option (List SkPoint)

namespace BezierProp

/-- The element `arr[index]` of the vector; an index past the end is the
out-of-range error. -/
def arrayAt (arr : List JsiValue) (index : Nat) : Except Error JsiValue :=
  match arr[index]? with
  | some corner => Except.ok corner
  | none => Except.error Error.OutOfRange

/-- The expression `PointProp::processValue(corner->getValue(JsiPropId::get(name)))`.
The parameter `processValue` is `PointProp::processValue`, which is not among
the sources. -/
def pointOfCorner (processValue : JsiValue → Except Error SkPoint) (corner : JsiValue)
    (name : PropId) : Except Error SkPoint :=
  match corner.getValue name with
  | Except.error e => Except.error e
  | Except.ok v => processValue v

/-- The expression `PointProp::processValue(arr[index]->getValue(JsiPropId::get(name)))`. -/
def cornerPoint (processValue : JsiValue → Except Error SkPoint) (arr : List JsiValue)
    (index : Nat) (name : PropId) : Except Error SkPoint :=
  match arrayAt arr index with
  | Except.error e => Except.error e
  | Except.ok corner => pointOfCorner processValue corner name

/-- The method `BezierProp::updateDerivedValue`. -/
def updateDerivedValue (processValue : JsiValue → Except Error SkPoint) (self : BezierProp) :
    Except Error BezierProp :=
  if self._bezierProp.getType = PropType.Array then
    match self._bezierProp.getAsArray with
    | Except.error e => Except.error e
    | Except.ok arr => do
      let p0 ← cornerPoint processValue arr 0 "pos"
      let p1 ← cornerPoint processValue arr 0 "c2"
      let p2 ← cornerPoint processValue arr 1 "c1"
      let p3 ← cornerPoint processValue arr 1 "pos"
      let p4 ← cornerPoint processValue arr 1 "c2"
      let p5 ← cornerPoint processValue arr 2 "c1"
      let p6 ← cornerPoint processValue arr 2 "pos"
      let p7 ← cornerPoint processValue arr 2 "c2"
      let p8 ← cornerPoint processValue arr 3 "c1"
      let p9 ← cornerPoint processValue arr 3 "pos"
      let p10 ← cornerPoint processValue arr 3 "c2"
      let p11 ← cornerPoint processValue arr 0 "c1"
      pure { self with _derivedValue := some [p0, p1, p2, p3, p4, p5, p6, p7, p8, p9, p10, p11] }
  else
    Except.ok self

end BezierProp

/-- A conversion of `{x, y}` objects with numeric fields to points, for the
samples. -/
def samplePointOf : JsiValue → Except Error SkPoint
  | JsiValue.object [("x", JsiValue.number x), ("y", JsiValue.number y)] =>
    Except.ok (SkPoint.mk x y)
  | _ => Except.error Error.MalformedSelector

/-- The corner object number `i` of the samples: `pos`, `c1` and `c2` have the
abscissa `10 i` and the ordinates 0, 1 and 2. -/
def sampleCorner (i : Nat) : JsiValue :=
  JsiValue.object
    [("pos", pointXY (10 * i) 0), ("c1", pointXY (10 * i) 1), ("c2", pointXY (10 * i) 2)]

/-- A Bezier property over five corner objects, with nothing cached. -/
def sampleBezier : BezierProp :=
  { _bezierProp := JsiValue.array
      [sampleCorner 0, sampleCorner 1, sampleCorner 2, sampleCorner 3, sampleCorner 4]
    _derivedValue := none }

end RNSkia

namespace RNSkia

/-! ## Facts about the containers -/

theorem mapAt_isSome_iff (m : List (PropId × JsiValue)) (k : PropId) :
    (mapAt m k).isSome = true ↔ k ∈ mapKeys m := by
  induction m with
  | nil => simp [mapAt, mapKeys]
  | cons e rest ih =>
    obtain ⟨k1, v1⟩ := e
    by_cases h : k = k1
    · subst h
      simp [mapAt, mapKeys, List.lookup]
    · have h1 : (k == k1) = false := by simpa using h
      simp only [mapAt, mapKeys, List.lookup, h1, List.map_cons, List.mem_cons, h, false_or]
      exact ih

theorem mapAt_eq_none_iff (m : List (PropId × JsiValue)) (k : PropId) :
    mapAt m k = none ↔ k ∉ mapKeys m := by
  rw [← mapAt_isSome_iff]
  cases mapAt m k <;> simp

theorem mapAt_append (m1 m2 : List (PropId × JsiValue)) (k : PropId) :
    mapAt (m1 ++ m2) k = (mapAt m1 k).or (mapAt m2 k) := by
  induction m1 with
  | nil => simp [mapAt]
  | cons e rest ih =>
    obtain ⟨k1, v1⟩ := e
    by_cases h : k = k1
    · subst h
      simp [mapAt, List.lookup]
    · have h1 : (k == k1) = false := by simpa using h
      have h2 : mapAt ((k1, v1) :: rest ++ m2) k = mapAt (rest ++ m2) k := by
        simp [mapAt, List.lookup, h1]
      have h3 : mapAt ((k1, v1) :: rest) k = mapAt rest k := by
        simp [mapAt, List.lookup, h1]
      rw [h2, h3, ih]

theorem mapEmplace_of_mem (m : List (PropId × JsiValue)) (k : PropId) (v : JsiValue)
    (h : k ∈ mapKeys m) : mapEmplace m k v = m := by
  have h1 : (m.lookup k).isSome = true := (mapAt_isSome_iff m k).2 h
  simp [mapEmplace, h1]

theorem mapEmplace_of_not_mem (m : List (PropId × JsiValue)) (k : PropId) (v : JsiValue)
    (h : k ∉ mapKeys m) : mapEmplace m k v = m ++ [(k, v)] := by
  have h1 : m.lookup k = none := (mapAt_eq_none_iff m k).2 h
  simp [mapEmplace, h1]

theorem mapAt_mapEmplace_self (m : List (PropId × JsiValue)) (k : PropId) (v : JsiValue)
    (h : k ∉ mapKeys m) : mapAt (mapEmplace m k v) k = some v := by
  rw [mapEmplace_of_not_mem m k v h, mapAt_append, (mapAt_eq_none_iff m k).2 h]
  simp [mapAt, List.lookup]

theorem mapAt_mapEmplace_of_mem (m : List (PropId × JsiValue)) (k : PropId) (v : JsiValue)
    (h : k ∈ mapKeys m) : mapAt (mapEmplace m k v) k = mapAt m k := by
  rw [mapEmplace_of_mem m k v h]

theorem mem_mapKeys_mapEmplace (m : List (PropId × JsiValue)) (k n : PropId) (v : JsiValue) :
    n ∈ mapKeys (mapEmplace m k v) ↔ n ∈ mapKeys m ∨ n = k := by
  by_cases h : k ∈ mapKeys m
  · rw [mapEmplace_of_mem m k v h]
    constructor
    · exact Or.inl
    · rintro (h1 | h1)
      · exact h1
      · exact h1 ▸ h
  · rw [mapEmplace_of_not_mem m k v h]
    simp [mapKeys]

theorem mapKeys_mapSwap (m : List (PropId × JsiValue)) (k : PropId) (v : JsiValue) :
    mapKeys (mapSwap m k v) = mapKeys m := by
  induction m with
  | nil => rfl
  | cons e rest ih =>
    simp only [mapKeys, mapSwap, List.map_cons] at ih ⊢
    rw [ih]
    by_cases h : e.1 = k <;> simp [h]

theorem mapAt_cons (k1 : PropId) (v1 : JsiValue) (rest : List (PropId × JsiValue))
    (n : PropId) : mapAt ((k1, v1) :: rest) n = if n = k1 then some v1 else mapAt rest n := by
  by_cases h : n = k1
  · subst h
    simp [mapAt, List.lookup]
  · have h1 : (n == k1) = false := by simpa using h
    simp [mapAt, List.lookup, h1, h]

theorem mapSwap_cons (k1 : PropId) (v1 : JsiValue) (rest : List (PropId × JsiValue))
    (k : PropId) (v : JsiValue) :
    mapSwap ((k1, v1) :: rest) k v
      = (if k1 = k then (k1, v) else (k1, v1)) :: mapSwap rest k v := by
  simp [mapSwap]

theorem mapAt_mapSwap_self (m : List (PropId × JsiValue)) (k : PropId) (v : JsiValue)
    (h : k ∈ mapKeys m) : mapAt (mapSwap m k v) k = some v := by
  induction m with
  | nil => simp [mapKeys] at h
  | cons e rest ih =>
    obtain ⟨k1, v1⟩ := e
    rw [mapSwap_cons]
    by_cases h1 : k1 = k
    · subst h1
      simp [mapAt_cons]
    · have h3 : k ∈ mapKeys rest := by
        simp only [mapKeys, List.map_cons, List.mem_cons] at h
        rcases h with h | h
        · exact absurd h.symm h1
        · exact h
      have h4 : ¬ k = k1 := fun h5 => h1 h5.symm
      simp only [h1, if_false, mapAt_cons, h4]
      exact ih h3

theorem mapAt_mapSwap_of_ne (m : List (PropId × JsiValue)) (k n : PropId) (v : JsiValue)
    (h : n ≠ k) : mapAt (mapSwap m k v) n = mapAt m n := by
  induction m with
  | nil => rfl
  | cons e rest ih =>
    obtain ⟨k1, v1⟩ := e
    rw [mapSwap_cons]
    by_cases h1 : k1 = k
    · subst h1
      simp only [if_true, mapAt_cons, h, if_false]
      exact ih
    · simp only [h1, if_false, mapAt_cons, ih]

theorem mem_setEmplace (s : List PropId) (k n : PropId) :
    n ∈ setEmplace s k ↔ n ∈ s ∨ n = k := by
  unfold setEmplace
  by_cases h : k ∈ s
  · simp only [h, if_true]
    constructor
    · exact Or.inl
    · rintro (h1 | h1)
      · exact h1
      · exact h1 ▸ h
  · simp [h]

theorem mem_setErase (s : List PropId) (k n : PropId) :
    n ∈ setErase s k ↔ n ∈ s ∧ n ≠ k := by
  simp [setErase]

namespace JsiDomNodeProps

/-! ## The invariant behind the lookups -/

theorem getPropValue_of_mem (self : JsiDomNodeProps) (name : PropId)
    (h : name ∈ mapKeys self._values) :
    ∃ v, mapAt self._values name = some v ∧ self.getPropValue name = Except.ok v := by
  have h1 := (mapAt_isSome_iff self._values name).2 h
  cases hv : mapAt self._values name with
  | none => simp [hv] at h1
  | some v => exact ⟨v, rfl, by simp [getPropValue, hv]⟩

theorem resolved_new (props : List (PropId × JsiValue)) : Resolved (JsiDomNodeProps.new props) :=
  ⟨fun n h => by simp [JsiDomNodeProps.new] at h, fun n h => by simp [JsiDomNodeProps.new, mapKeys] at h⟩

theorem resolved_requestPropChange (self : JsiDomNodeProps) (name : PropId)
    (h : Resolved self) : Resolved (self.requestPropChange name) :=
  ⟨h.withValues, h.pending⟩

theorem resolved_resetPropChanges (self : JsiDomNodeProps) (h : Resolved self) :
    Resolved self.resetPropChanges :=
  ⟨h.withValues, h.pending⟩

theorem resolved_addPropValueTransaction (self : JsiDomNodeProps) (name : PropId)
    (value : JsiValue) (h : Resolved self) : Resolved (self.addPropValueTransaction name value) := by
  unfold addPropValueTransaction
  by_cases hp : self.hasPropValue name = true
  · rw [if_pos hp]
    apply resolved_requestPropChange
    refine ⟨h.withValues, ?_⟩
    intro n hn
    rcases (mem_mapKeys_mapEmplace self._transactions name n value).1 hn with h1 | h1
    · exact h.pending n h1
    · subst h1
      exact h.withValues n (by simpa [hasPropValue] using hp)
  · rw [if_neg hp]
    exact h

theorem resolved_initializePropValue (self : JsiDomNodeProps) (name : PropId)
    (value : JsiValue) (h : Resolved self) : Resolved (self.initializePropValue name value) := by
  unfold initializePropValue
  apply resolved_requestPropChange
  by_cases hv : (!value.isUndefinedOrNull) = true
  · simp only [hv, if_true]
    refine ⟨?_, ?_⟩
    · intro n hn
      apply (mem_mapKeys_mapEmplace _ _ _ _).2
      rcases (mem_setEmplace _ _ _).1 hn with h1 | h1
      · exact Or.inl (h.withValues n h1)
      · exact Or.inr h1
    · intro n hn
      exact (mem_mapKeys_mapEmplace _ _ _ _).2 (Or.inl (h.pending n hn))
  · simp only [hv]
    refine ⟨?_, ?_⟩
    · intro n hn
      exact (mem_mapKeys_mapEmplace _ _ _ _).2 (Or.inl (h.withValues n hn))
    · intro n hn
      exact (mem_mapKeys_mapEmplace _ _ _ _).2 (Or.inl (h.pending n hn))

theorem mem_mapKeys_initializePropValue (self : JsiDomNodeProps) (name : PropId)
    (value : JsiValue) : name ∈ mapKeys (self.initializePropValue name value)._values := by
  unfold initializePropValue requestPropChange
  by_cases hv : (!value.isUndefinedOrNull) = true
  · simp only [hv, if_true]
    exact (mem_mapKeys_mapEmplace _ _ _ _).2 (Or.inr rfl)
  · simp only [hv]
    exact (mem_mapKeys_mapEmplace _ _ _ _).2 (Or.inr rfl)

end JsiDomNodeProps

namespace JsiDomNodeProps

/-! ## Commit -/

theorem commitEntry_of_mem (self : JsiDomNodeProps) (el : PropId × JsiValue)
    (h : el.1 ∈ mapKeys self._values) : commitEntry self el = Except.ok (afterEntry self el) := by
  obtain ⟨v, _, hv⟩ := getPropValue_of_mem self el.1 h
  unfold commitEntry afterEntry
  rw [hv]
  by_cases h1 : (!el.2.isUndefinedOrNull) = true
  · simp [h1]
  · by_cases h2 : setCount self._propsWithValues el.1 > 0
    · simp [h1, h2]
    · simp [h1, h2]

theorem mem_propsWithValues_afterEntry (self : JsiDomNodeProps) (el : PropId × JsiValue)
    (n : PropId) :
    n ∈ (afterEntry self el)._propsWithValues ↔
      (n = el.1 ∧ el.2.isUndefinedOrNull = false) ∨ (n ≠ el.1 ∧ n ∈ self._propsWithValues) := by
  unfold afterEntry
  by_cases h1 : el.2.isUndefinedOrNull = true
  · simp only [h1, Bool.not_true, Bool.false_eq_true, if_false]
    by_cases h2 : setCount self._propsWithValues el.1 > 0
    · simp only [h2, if_true, mem_setErase]
      constructor
      · rintro ⟨h3, h4⟩
        exact Or.inr ⟨h4, h3⟩
      · rintro (⟨_, h3⟩ | ⟨h3, h4⟩)
        · exact absurd h3 (by simp)
        · exact ⟨h4, h3⟩
    · simp only [h2, if_false]
      have h3 : el.1 ∉ self._propsWithValues := by
        intro h4
        apply h2
        simp [setCount, h4]
      constructor
      · intro h4
        refine Or.inr ⟨?_, h4⟩
        intro h5
        exact h3 (h5 ▸ h4)
      · rintro (⟨_, h4⟩ | ⟨_, h4⟩)
        · exact absurd h4 (by simp)
        · exact h4
  · have h1f : el.2.isUndefinedOrNull = false := by simpa using h1
    simp only [h1f, Bool.not_false, if_true, mem_setEmplace]
    constructor
    · rintro (h2 | h2)
      · by_cases h3 : n = el.1
        · exact Or.inl ⟨h3, trivial⟩
        · exact Or.inr ⟨h3, h2⟩
      · exact Or.inl ⟨h2, trivial⟩
    · rintro (⟨h2, _⟩ | ⟨_, h2⟩)
      · exact Or.inr h2
      · exact Or.inl h2

theorem commitLoop_append (l1 l2 : List (PropId × JsiValue)) (self : JsiDomNodeProps) :
    commitLoop (l1 ++ l2) self =
      match commitLoop l1 self with
      | Except.error e => Except.error e
      | Except.ok self1 => commitLoop l2 self1 := by
  induction l1 generalizing self with
  | nil => rfl
  | cons el rest ih =>
    simp only [List.cons_append, commitLoop]
    cases commitEntry self el with
    | error e => rfl
    | ok self1 => exact ih self1

/-- The loop succeeds when every pending name has a value; it keeps the keys of
`_values`, the pending map, the change tracking, the subscriptions and the
authored object. -/
theorem commitLoop_ok (l : List (PropId × JsiValue)) (self : JsiDomNodeProps)
    (h : ∀ n, n ∈ mapKeys l → n ∈ mapKeys self._values) :
    ∃ self1, commitLoop l self = Except.ok self1 ∧
      mapKeys self1._values = mapKeys self._values ∧
      self1._transactions = self._transactions ∧
      self1._changedPropNames = self._changedPropNames ∧
      self1._propChanges = self._propChanges ∧
      self1._unsubscriptions = self._unsubscriptions ∧
      self1._props = self._props ∧
      (∀ n, n ∉ mapKeys l → mapAt self1._values n = mapAt self._values n) ∧
      (∀ n, n ∉ mapKeys l → (n ∈ self1._propsWithValues ↔ n ∈ self._propsWithValues)) ∧
      (∀ n, n ∈ self1._propsWithValues → n ∈ self._propsWithValues ∨ n ∈ mapKeys l) := by
  induction l generalizing self with
  | nil =>
    exact ⟨self, rfl, rfl, rfl, rfl, rfl, rfl, rfl, fun _ _ => rfl, fun _ _ => Iff.rfl,
      fun _ hn => Or.inl hn⟩
  | cons el rest ih =>
    have hel : el.1 ∈ mapKeys self._values := h el.1 (by simp [mapKeys])
    have hkeys : mapKeys (afterEntry self el)._values = mapKeys self._values := by
      simp [afterEntry, mapKeys_mapSwap]
    have hrest : ∀ n, n ∈ mapKeys rest → n ∈ mapKeys (afterEntry self el)._values := by
      intro n hn
      rw [hkeys]
      exact h n (by simp only [mapKeys, List.map_cons, List.mem_cons] at hn ⊢; exact Or.inr hn)
    obtain ⟨self1, h1, h2, h3, h4, h5, h6, h7, h8, h9, h10⟩ := ih (afterEntry self el) hrest
    refine ⟨self1, ?_, ?_, ?_, ?_, ?_, ?_, ?_, ?_, ?_, ?_⟩
    · simp only [commitLoop, commitEntry_of_mem self el hel]
      exact h1
    · rw [h2, hkeys]
    · rw [h3]; rfl
    · rw [h4]; rfl
    · rw [h5]; rfl
    · rw [h6]; rfl
    · rw [h7]; rfl
    · intro n hn
      have hn1 : n ≠ el.1 ∧ n ∉ mapKeys rest := by
        simp only [mapKeys, List.map_cons, List.mem_cons, not_or] at hn ⊢
        exact hn
      rw [h8 n hn1.2]
      exact mapAt_mapSwap_of_ne _ _ _ _ hn1.1
    · intro n hn
      have hn1 : n ≠ el.1 ∧ n ∉ mapKeys rest := by
        simp only [mapKeys, List.map_cons, List.mem_cons, not_or] at hn ⊢
        exact hn
      rw [h9 n hn1.2, mem_propsWithValues_afterEntry]
      constructor
      · rintro (⟨h11, _⟩ | ⟨_, h11⟩)
        · exact absurd h11 hn1.1
        · exact h11
      · intro h11
        exact Or.inr ⟨hn1.1, h11⟩
    · intro n hn
      rcases h10 n hn with h11 | h11
      · rcases (mem_propsWithValues_afterEntry self el n).1 h11 with ⟨h12, _⟩ | ⟨_, h12⟩
        · exact Or.inr (by simp [mapKeys, h12])
        · exact Or.inl h12
      · exact Or.inr (by
          simp only [mapKeys, List.map_cons, List.mem_cons] at h11 ⊢
          exact Or.inr h11)

/-- Committing succeeds on a store that satisfies the invariant, and the store
it leaves satisfies it again, with no pending transaction. -/
theorem commitTransactions_ok (self : JsiDomNodeProps) (h : Resolved self) :
    ∃ self1, self.commitTransactions = Except.ok self1 ∧ Resolved self1 ∧
      self1._transactions = [] ∧
      self1._changedPropNames = self._changedPropNames ∧
      self1._propChanges = self._propChanges := by
  obtain ⟨s1, h1, h2, _, h4, h5, _, _, _, _, h10⟩ := commitLoop_ok self._transactions self h.pending
  refine ⟨{ s1 with _transactions := [] }, ?_, ⟨?_, ?_⟩, rfl, h4, h5⟩
  · simp [commitTransactions, h1]
  · intro n hn
    show n ∈ mapKeys s1._values
    rw [h2]
    rcases h10 n hn with h11 | h11
    · exact h.withValues n h11
    · exact h.pending n h11
  · intro n hn
    simp [mapKeys] at hn

end JsiDomNodeProps

namespace JsiDomNodeProps

/-! ## Resolving and the reachable states -/

theorem getPropValue_eq_ok (self : JsiDomNodeProps) (name : PropId) (v : JsiValue)
    (h : self.getPropValue name = Except.ok v) : mapAt self._values name = some v := by
  unfold getPropValue at h
  cases hv : mapAt self._values name with
  | none => simp [hv] at h
  | some w =>
    simp only [hv, Except.ok.injEq] at h
    rw [h]

/-- A resolve that returns has seeded the store through `initializePropValue`
and changed nothing else but the list of subscriptions. -/
theorem tryReadProperty_ok_shape (runtime : Runtime) (self self1 : JsiDomNodeProps)
    (name : PropId) (type : PropType) (v : JsiValue)
    (h : self.tryReadProperty runtime name type = Except.ok (v, self1)) :
    ∃ value subs,
      self1 = { self.initializePropValue name value with _unsubscriptions := subs } ∧
      mapAt self1._values name = some v := by
  unfold tryReadProperty at h
  simp only at h
  split at h
  · split at h
    · exact absurd h (by simp)
    · split at h
      · exact absurd h (by simp)
      · rename_i w hw
        simp only [Except.ok.injEq, Prod.mk.injEq] at h
        obtain ⟨h1, h2⟩ := h
        subst h1 h2
        exact ⟨_, _, rfl, getPropValue_eq_ok _ _ _ hw⟩
  · split at h
    · split at h
      · exact absurd h (by simp)
      · split at h
        · exact absurd h (by simp)
        · split at h
          · exact absurd h (by simp)
          · split at h
            · exact absurd h (by simp)
            · split at h
              · exact absurd h (by simp)
              · split at h
                · exact absurd h (by simp)
                · rename_i w hw
                  simp only [Except.ok.injEq, Prod.mk.injEq] at h
                  obtain ⟨h1, h2⟩ := h
                  subst h1 h2
                  exact ⟨_, _, rfl, getPropValue_eq_ok _ _ _ hw⟩
    · split at h
      · exact absurd h (by simp)
      · split at h
        · exact absurd h (by simp)
        · rename_i w hw
          simp only [Except.ok.injEq, Prod.mk.injEq] at h
          obtain ⟨h1, h2⟩ := h
          subst h1 h2
          exact ⟨_, _, rfl, getPropValue_eq_ok _ _ _ hw⟩

theorem resolved_notify (runtime : Runtime) (self : JsiDomNodeProps) (l : Listener)
    (h : Resolved self) : Resolved (self.notify runtime l) := by
  cases l with
  | animated name animatedValue => exact resolved_addPropValueTransaction _ _ _ h
  | selector name selectorFn readonlyValue => exact resolved_addPropValueTransaction _ _ _ h

/-- Every reachable state satisfies the invariant. -/
theorem resolved_of_reachable (props : List (PropId × JsiValue)) (self : JsiDomNodeProps)
    (h : Reachable props self) : Resolved self := by
  induction h with
  | init => exact resolved_new props
  | read runtime name type v _ hread ih =>
    obtain ⟨value, subs, h1, _⟩ := tryReadProperty_ok_shape _ _ _ _ _ _ hread
    have h2 := resolved_initializePropValue _ name value ih
    rw [h1]
    exact ⟨h2.withValues, h2.pending⟩
  | notify runtime l _ _ ih => exact resolved_notify runtime _ l ih
  | commit _ hcommit ih =>
    obtain ⟨s1, h1, h2, _⟩ := commitTransactions_ok _ ih
    rw [hcommit] at h1
    cases h1
    exact h2
  | reset _ ih => exact resolved_resetPropChanges _ ih

end JsiDomNodeProps

namespace JsiDomNodeProps

/-! ## Change tracking and staging -/

theorem getHasPropChangesOf_iff (self : JsiDomNodeProps) (n : PropId) :
    self.getHasPropChangesOf n = true ↔ n ∈ self._changedPropNames := by
  unfold getHasPropChangesOf setCount
  by_cases h : n ∈ self._changedPropNames <;> simp [h]

theorem mapKeys_mapEmplace (m : List (PropId × JsiValue)) (k : PropId) (v : JsiValue) :
    mapKeys (mapEmplace m k v) = setEmplace (mapKeys m) k := by
  unfold setEmplace
  by_cases h : k ∈ mapKeys m
  · rw [mapEmplace_of_mem m k v h, if_pos h]
  · rw [mapEmplace_of_not_mem m k v h, if_neg h]
    simp [mapKeys]

theorem addPropValueTransaction_frame (self : JsiDomNodeProps) (name : PropId)
    (value : JsiValue) :
    (self.addPropValueTransaction name value)._values = self._values ∧
    (self.addPropValueTransaction name value)._propsWithValues = self._propsWithValues ∧
    (self.addPropValueTransaction name value)._props = self._props ∧
    (self.addPropValueTransaction name value)._unsubscriptions = self._unsubscriptions := by
  unfold addPropValueTransaction
  by_cases hp : self.hasPropValue name = true
  · rw [if_pos hp]
    exact ⟨rfl, rfl, rfl, rfl⟩
  · rw [if_neg hp]
    exact ⟨rfl, rfl, rfl, rfl⟩

theorem stageAll_frame (ops : List (PropId × JsiValue)) (self : JsiDomNodeProps) :
    (stageAll ops self)._values = self._values ∧
    (stageAll ops self)._propsWithValues = self._propsWithValues := by
  induction ops generalizing self with
  | nil => exact ⟨rfl, rfl⟩
  | cons op rest ih =>
    have h1 := addPropValueTransaction_frame self op.1 op.2
    have h2 := ih (self.addPropValueTransaction op.1 op.2)
    simp only [stageAll, List.foldl_cons] at h2 ⊢
    exact ⟨h2.1.trans h1.1, h2.2.trans h1.2.1⟩

theorem resolved_stageAll (ops : List (PropId × JsiValue)) (self : JsiDomNodeProps)
    (h : Resolved self) : Resolved (stageAll ops self) := by
  induction ops generalizing self with
  | nil => exact h
  | cons op rest ih =>
    exact ih _ (resolved_addPropValueTransaction self op.1 op.2 h)

theorem addPropValueTransaction_changed_eq_pending (self : JsiDomNodeProps) (name : PropId)
    (value : JsiValue) (h : self._changedPropNames = mapKeys self._transactions) :
    (self.addPropValueTransaction name value)._changedPropNames
      = mapKeys (self.addPropValueTransaction name value)._transactions := by
  unfold addPropValueTransaction
  by_cases hp : self.hasPropValue name = true
  · rw [if_pos hp]
    simp only [requestPropChange]
    rw [mapKeys_mapEmplace, h]
  · rw [if_neg hp]
    exact h

/-- Staging keeps the list of changed names equal to the list of pending
names once they are equal. -/
theorem stageAll_changed_eq_pending (ops : List (PropId × JsiValue)) (self : JsiDomNodeProps)
    (h : self._changedPropNames = mapKeys self._transactions) :
    (stageAll ops self)._changedPropNames = mapKeys (stageAll ops self)._transactions := by
  induction ops generalizing self with
  | nil => exact h
  | cons op rest ih =>
    exact ih _ (addPropValueTransaction_changed_eq_pending self op.1 op.2 h)

theorem reachable_storeSeeded : Reachable sampleProps storeSeeded :=
  Reachable.read (sampleRuntime (JsiValue.number 5)) "r" PropType.Number (JsiValue.number 5)
    (Reachable.init : Reachable sampleProps (JsiDomNodeProps.new sampleProps)) rfl

theorem reachable_storeStaged : Reachable sampleProps storeStaged :=
  Reachable.notify (sampleRuntime (JsiValue.number 7)) (Listener.animated "r" 0)
    reachable_storeSeeded (by simp [storeSeeded])

end JsiDomNodeProps

namespace JsiDomNodeProps

theorem values_initializePropValue (self : JsiDomNodeProps) (name : PropId) (value : JsiValue) :
    (self.initializePropValue name value)._values = mapEmplace self._values name value ∧
    (self.initializePropValue name value)._transactions = self._transactions ∧
    (self.initializePropValue name value)._unsubscriptions = self._unsubscriptions ∧
    (self.initializePropValue name value)._props = self._props ∧
    (self.initializePropValue name value)._propChanges = (self._propChanges + 1) % SIZE_RANGE ∧
    (self.initializePropValue name value)._changedPropNames
      = setEmplace self._changedPropNames name ∧
    (self.initializePropValue name value)._propsWithValues
      = if value.isUndefinedOrNull then self._propsWithValues
        else setEmplace self._propsWithValues name := by
  unfold initializePropValue requestPropChange
  cases hv : value.isUndefinedOrNull <;> simp [hv]

/-- The dynamic-value branch of `tryReadProperty` always returns: it seeds the
store, appends one subscription and hands back the entry of the name. -/
theorem tryReadProperty_animated (runtime : Runtime) (self : JsiDomNodeProps) (name : PropId)
    (type : PropType) (d : Nat)
    (h : self.getProperty name = JsiValue.hostObject (HostObject.readonlyValue d)) :
    ∃ v, self.tryReadProperty runtime name type = Except.ok (v,
        { self.initializePropValue name (runtime.getCurrent d) with
          _unsubscriptions :=
            (self.initializePropValue name (runtime.getCurrent d))._unsubscriptions
              ++ [Listener.animated name d] }) ∧
      mapAt (self.initializePropValue name (runtime.getCurrent d))._values name = some v := by
  obtain ⟨v, hv1, hv2⟩ := getPropValue_of_mem
    { self.initializePropValue name (runtime.getCurrent d) with
      _unsubscriptions :=
        (self.initializePropValue name (runtime.getCurrent d))._unsubscriptions
          ++ [Listener.animated name d] } name
    (mem_mapKeys_initializePropValue self name (runtime.getCurrent d))
  refine ⟨v, ?_, hv1⟩
  unfold tryReadProperty
  simp only [h, isAnimatedValue, getAnimatedValue, HostObject.asReadonlyValue, Option.isSome_some,
    if_true]
  rw [hv2]

/-- The selector branch of `tryReadProperty` returns on a well-formed selector
expression: it seeds the store with the function's result, appends one
subscription and hands back the entry of the name. -/
theorem tryReadProperty_selector (runtime : Runtime) (self : JsiDomNodeProps) (name : PropId)
    (type : PropType) (fields : List (PropId × JsiValue)) (f d : Nat)
    (h : self.getProperty name = JsiValue.object fields)
    (hsel : fields.lookup PropNameSelector = some (JsiValue.hostFunction f))
    (hval : fields.lookup PropNameValue = some (JsiValue.hostObject (HostObject.readonlyValue d))) :
    ∃ v, self.tryReadProperty runtime name type = Except.ok (v,
        { self.initializePropValue name (runtime.call f (runtime.getCurrent d)) with
          _unsubscriptions :=
            (self.initializePropValue name (runtime.call f (runtime.getCurrent d)))._unsubscriptions
              ++ [Listener.selector name f d] }) ∧
      mapAt (self.initializePropValue name (runtime.call f (runtime.getCurrent d)))._values name
        = some v := by
  obtain ⟨v, hv1, hv2⟩ := getPropValue_of_mem
    { self.initializePropValue name (runtime.call f (runtime.getCurrent d)) with
      _unsubscriptions :=
        (self.initializePropValue name (runtime.call f (runtime.getCurrent d)))._unsubscriptions
          ++ [Listener.selector name f d] } name
    (mem_mapKeys_initializePropValue self name _)
  refine ⟨v, ?_, hv1⟩
  unfold tryReadProperty
  simp only [h, isAnimatedValue, isSelector, JsiValue.getType, JsiValue.hasValue, hsel, hval,
    Option.isSome_some, Bool.and_self, if_true, JsiValue.getValue, JsiValue.getAsHostObject,
    JsiValue.getAsFunction, HostObject.asReadonlyValue, Bool.false_eq_true, if_false]
  rw [hv2]

/-- The plain branch of `tryReadProperty`. -/
theorem tryReadProperty_plain (runtime : Runtime) (self : JsiDomNodeProps) (name : PropId)
    (type : PropType)
    (hA : isAnimatedValue (self.getProperty name) = false)
    (hS : isSelector (self.getProperty name) = false) :
    self.tryReadProperty runtime name type =
      if (self.getProperty name).getType ≠ type ∧ (self.getProperty name).isUndefinedOrNull = false
      then Except.error (Error.TypeMismatch type (self.getProperty name).getType name)
      else
        match (self.initializePropValue name (self.getProperty name)).getPropValue name with
        | Except.error e => Except.error e
        | Except.ok v => Except.ok (v, self.initializePropValue name (self.getProperty name)) := by
  unfold tryReadProperty
  simp only [hA, hS, Bool.false_eq_true, if_false]
  by_cases h1 : (self.getProperty name).getType = type
  · simp [h1]
  · cases h2 : (self.getProperty name).isUndefinedOrNull
    · have h3 : ((self.getProperty name).isUndefined || (self.getProperty name).isNull) = false := h2
      simp [h1, h3]
    · have h3 : ((self.getProperty name).isUndefined || (self.getProperty name).isNull) = true := h2
      simp [h1, h3]

end JsiDomNodeProps

namespace JsiDomNodeProps

theorem getPropValue_error (self : JsiDomNodeProps) (name : PropId) (e : Error)
    (h : self.getPropValue name = Except.error e) : e = Error.OutOfRange := by
  unfold getPropValue at h
  split at h
  · exact absurd h (by simp)
  · exact (Except.error.inj h).symm

theorem getValue_error (v : JsiValue) (name : PropId) (e : Error)
    (h : v.getValue name = Except.error e) :
    e = Error.OutOfRange ∨ e = Error.MalformedSelector := by
  unfold JsiValue.getValue at h
  split at h
  · split at h
    · exact absurd h (by simp)
    · exact Or.inl (Except.error.inj h).symm
  · exact Or.inr (Except.error.inj h).symm

theorem getAsHostObject_error (v : JsiValue) (e : Error)
    (h : v.getAsHostObject = Except.error e) : e = Error.MalformedSelector := by
  unfold JsiValue.getAsHostObject at h
  split at h
  · exact absurd h (by simp)
  · exact (Except.error.inj h).symm

theorem getAsFunction_error (v : JsiValue) (e : Error)
    (h : v.getAsFunction = Except.error e) : e = Error.MalformedSelector := by
  unfold JsiValue.getAsFunction at h
  split at h
  · exact absurd h (by simp)
  · exact (Except.error.inj h).symm

theorem isAnimatedValue_eq_true (value : JsiValue) (h : isAnimatedValue value = true) :
    ∃ d, value = JsiValue.hostObject (HostObject.readonlyValue d) := by
  unfold isAnimatedValue at h
  split at h
  · rename_i hobj
    cases hobj with
    | readonlyValue d => exact ⟨d, rfl⟩
    | other id => exact absurd h (by simp [HostObject.asReadonlyValue])
  · exact absurd h (by simp)

/-- The type-mismatch error comes from the plain branch only. -/
theorem typeMismatch_only_plain (runtime : Runtime) (self : JsiDomNodeProps) (name : PropId)
    (type expected got : PropType) (n : PropId)
    (herr : self.tryReadProperty runtime name type
      = Except.error (Error.TypeMismatch expected got n)) :
    isAnimatedValue (self.getProperty name) = false ∧
    isSelector (self.getProperty name) = false := by
  cases hA : isAnimatedValue (self.getProperty name) with
  | true =>
    obtain ⟨d, hd⟩ := isAnimatedValue_eq_true _ hA
    obtain ⟨v, hv, _⟩ := tryReadProperty_animated runtime self name type d hd
    rw [hv] at herr
    exact absurd herr (by simp)
  | false =>
    refine ⟨rfl, ?_⟩
    cases hS : isSelector (self.getProperty name) with
    | false => rfl
    | true =>
      exfalso
      unfold tryReadProperty at herr
      simp only [hA, hS, Bool.false_eq_true, if_false, if_true] at herr
      cases h1 : (self.getProperty name).getValue PropNameValue with
      | error e =>
        simp only [h1] at herr
        rcases getValue_error _ _ _ h1 with h | h <;> rw [h] at herr <;> simp at herr
      | ok valueField =>
        simp only [h1] at herr
        cases h2 : valueField.getAsHostObject with
        | error e =>
          simp only [h2] at herr
          rw [getAsHostObject_error _ _ h2] at herr
          simp at herr
        | ok valueHandle =>
          simp only [h2] at herr
          cases h3 : (self.getProperty name).getValue PropNameSelector with
          | error e =>
            simp only [h3] at herr
            rcases getValue_error _ _ _ h3 with h | h <;> rw [h] at herr <;> simp at herr
          | ok selectorField =>
            simp only [h3] at herr
            cases h4 : selectorField.getAsFunction with
            | error e =>
              simp only [h4] at herr
              rw [getAsFunction_error _ _ h4] at herr
              simp at herr
            | ok selectorFn =>
              simp only [h4] at herr
              cases h5 : valueHandle.asReadonlyValue with
              | none =>
                simp only [h5] at herr
                simp at herr
              | some readonlyValue =>
                simp only [h5] at herr
                split at herr
                · rename_i e he
                  rw [getPropValue_error _ _ _ he] at herr
                  simp at herr
                · exact absurd herr (by simp)

end JsiDomNodeProps

namespace JsiDomNodeProps

/-- Committing a store whose last pending entry is `(name, value)` leaves the
store reading `value` for `name`. -/
theorem commit_reads_last_pending (self : JsiDomNodeProps) (hres : Resolved self)
    (pending : List (PropId × JsiValue)) (name : PropId) (value : JsiValue)
    (ht : self._transactions = pending ++ [(name, value)]) :
    ∃ self2, self.commitTransactions = Except.ok self2 ∧
      self2.getPropValue name = Except.ok value := by
  have hp : ∀ n, n ∈ mapKeys pending → n ∈ mapKeys self._values := by
    intro n hn
    apply hres.pending
    rw [ht]
    simp only [mapKeys, List.map_append, List.mem_append] at hn ⊢
    exact Or.inl hn
  have hname : name ∈ mapKeys self._values := by
    apply hres.pending
    rw [ht]
    simp [mapKeys]
  obtain ⟨s1, h1, h2, _⟩ := commitLoop_ok pending self hp
  have hname1 : name ∈ mapKeys s1._values := by rw [h2]; exact hname
  refine ⟨{ afterEntry s1 (name, value) with _transactions := [] }, ?_, ?_⟩
  · unfold commitTransactions
    rw [ht, commitLoop_append, h1]
    simp only [commitLoop, commitEntry_of_mem s1 (name, value) hname1]
  · have h3 : mapAt (mapSwap s1._values name value) name = some value :=
      mapAt_mapSwap_self _ _ _ hname1
    simp only [getPropValue, afterEntry, h3]

end JsiDomNodeProps

namespace JsiDomNodeProps

theorem stageAll_same_name_pending (values : List JsiValue) (self : JsiDomNodeProps)
    (name : PropId) (h : name ∈ mapKeys self._transactions) :
    (stageAll (values.map fun v => (name, v)) self)._transactions = self._transactions := by
  induction values generalizing self with
  | nil => rfl
  | cons v rest ih =>
    have hstep : (self.addPropValueTransaction name v)._transactions = self._transactions := by
      unfold addPropValueTransaction
      by_cases hp : self.hasPropValue name = true
      · rw [if_pos hp]
        exact mapEmplace_of_mem _ _ _ h
      · rw [if_neg hp]
    have h1 := ih (self.addPropValueTransaction name v) (by rw [hstep]; exact h)
    simp only [stageAll, List.map_cons, List.foldl_cons] at h1 ⊢
    rw [h1, hstep]

/-- What the code does where C1 asks for the last value: when a name with a
value and no pending transaction receives the values `first`, then `later`, all
staged before one commit, the commit leaves the store reading `first`. -/
theorem first_staged_value_wins (self : JsiDomNodeProps) (hres : Resolved self)
    (name : PropId) (first : JsiValue) (later : List JsiValue)
    (hhas : self.hasPropValue name = true)
    (hnopend : name ∉ mapKeys self._transactions) :
    ∃ self2,
      (stageAll ((name, first) :: later.map fun v => (name, v)) self).commitTransactions
        = Except.ok self2 ∧
      self2.getPropValue name = Except.ok first := by
  have hstep : (self.addPropValueTransaction name first)._transactions
      = self._transactions ++ [(name, first)] := by
    simp only [addPropValueTransaction, hhas, if_true, requestPropChange]
    exact mapEmplace_of_not_mem _ _ _ hnopend
  have hall : (stageAll ((name, first) :: later.map fun v => (name, v)) self)._transactions
      = self._transactions ++ [(name, first)] := by
    have h1 := stageAll_same_name_pending later (self.addPropValueTransaction name first) name
      (by rw [hstep]; simp [mapKeys])
    simp only [stageAll, List.foldl_cons] at h1 ⊢
    rw [h1, hstep]
  exact commit_reads_last_pending _ (resolved_stageAll _ self hres) _ _ _ hall

end JsiDomNodeProps

open JsiDomNodeProps

/-! ## Properties of the store -/

/-- C1, on the code: in the reachable sample store the property `r` holds the
non-null value 5 and nothing is pending; the dynamic value notifies with 7 and
then with 9, so that the listener stages 7 and then 9 for `r` through
`addPropValueTransaction`, with no commit in between; after
`commitTransactions` the store reads 7 for `r`, the value staged first, not 9,
the value staged last.  The second `emplace` into `_transactions` finds the key
present and drops its value. -/
theorem C1_first_staged_value_is_committed :
    Reachable sampleProps storeSeeded ∧
    storeSeeded.hasPropValue "r" = true ∧
    storeSeeded.getPropValue "r" = Except.ok (JsiValue.number 5) ∧
    (storeSeeded.notify (sampleRuntime (JsiValue.number 7)) (Listener.animated "r" 0)).notify
        (sampleRuntime (JsiValue.number 9)) (Listener.animated "r" 0)
      = (storeSeeded.addPropValueTransaction "r" (JsiValue.number 7)).addPropValueTransaction
        "r" (JsiValue.number 9) ∧
    ((storeSeeded.addPropValueTransaction "r" (JsiValue.number 7)).addPropValueTransaction
        "r" (JsiValue.number 9)).commitTransactions = Except.ok storeCommitted ∧
    storeCommitted.getPropValue "r" = Except.ok (JsiValue.number 7) ∧
    storeCommitted.getPropValue "r" ≠ Except.ok (JsiValue.number 9) := by
  refine ⟨reachable_storeSeeded, rfl, rfl, rfl, rfl, rfl, ?_⟩
  simp [storeCommitted, getPropValue, mapAt, List.lookup]

/-- C2 as stated fails: the sample store in which `r` was just resolved is
reachable and has no pending transaction; committing it succeeds and leaves `r`
among the changed names although the committed batch was empty. -/
theorem C2_changed_name_outside_the_batch :
    Reachable sampleProps storeSeeded ∧
    storeSeeded.commitTransactions = Except.ok storeSeeded ∧
    storeSeeded.getHasPropChangesOf "r" = true ∧
    "r" ∉ mapKeys storeSeeded._transactions :=
  ⟨reachable_storeSeeded, rfl, rfl, by simp [storeSeeded, mapKeys]⟩

/-- C2, amended: `commitTransactions` does not touch the changed names; they
are marked when a value is seeded and when a transaction is staged.  From a
reachable state with no pending transaction and no changed name, after any
sequence of stagings the commit succeeds, leaves no pending transaction, and
the changed names are then exactly the names that had a pending transaction in
the committed batch. -/
theorem C2_changed_names_are_the_staged_batch (props : List (PropId × JsiValue))
    (self : JsiDomNodeProps) (ops : List (PropId × JsiValue))
    (hreach : Reachable props self)
    (hpending : self._transactions = [])
    (hchanged : self._changedPropNames = []) :
    ∃ self1, (stageAll ops self).commitTransactions = Except.ok self1 ∧
      self1._transactions = [] ∧
      self1._changedPropNames = (stageAll ops self)._changedPropNames ∧
      ∀ n, self1.getHasPropChangesOf n = true ↔ n ∈ mapKeys (stageAll ops self)._transactions := by
  have hres := resolved_stageAll ops self (resolved_of_reachable props self hreach)
  obtain ⟨self1, h1, _, h3, h4, _⟩ := commitTransactions_ok _ hres
  refine ⟨self1, h1, h3, h4, ?_⟩
  intro n
  rw [getHasPropChangesOf_iff, h4]
  rw [stageAll_changed_eq_pending ops self (by rw [hpending, hchanged]; rfl)]

/-- Witness of C2 amended: in the sample store after `r` was resolved and the
change tracking reset, two notifications for `r` are staged and committed. -/
theorem C2_changed_names_are_the_staged_batch_witness :
    ∃ self1,
      (stageAll [("r", JsiValue.number 7), ("r", JsiValue.number 9)]
        storeSeeded.resetPropChanges).commitTransactions = Except.ok self1 ∧
      self1._transactions = [] ∧
      self1._changedPropNames =
        (stageAll [("r", JsiValue.number 7), ("r", JsiValue.number 9)]
          storeSeeded.resetPropChanges)._changedPropNames ∧
      ∀ n, self1.getHasPropChangesOf n = true ↔
        n ∈ mapKeys (stageAll [("r", JsiValue.number 7), ("r", JsiValue.number 9)]
          storeSeeded.resetPropChanges)._transactions :=
  C2_changed_names_are_the_staged_batch sampleProps storeSeeded.resetPropChanges
    [("r", JsiValue.number 7), ("r", JsiValue.number 9)]
    (Reachable.reset reachable_storeSeeded) rfl rfl

/-- C3: in every state reachable from a fresh store by resolving, listener
notifications, commits and resets, every name with a pending transaction has an
entry in `_values`, so `getPropValue` returns for it, and `commitTransactions`
returns a store: the lookup `_values.at(name)` inside the commit does not
raise. -/
theorem C3_commitTransactions_never_fails (props : List (PropId × JsiValue))
    (self : JsiDomNodeProps) (hreach : Reachable props self) :
    (∀ n, n ∈ mapKeys self._transactions → ∃ v, self.getPropValue n = Except.ok v) ∧
    ∃ self1, self.commitTransactions = Except.ok self1 := by
  have hres := resolved_of_reachable props self hreach
  refine ⟨?_, ?_⟩
  · intro n hn
    obtain ⟨v, _, hv⟩ := getPropValue_of_mem self n (hres.pending n hn)
    exact ⟨v, hv⟩
  · obtain ⟨self1, h1, _⟩ := commitTransactions_ok self hres
    exact ⟨self1, h1⟩

/-- Witness of C3: the sample store with a transaction pending for `r`. -/
theorem C3_commitTransactions_never_fails_witness :
    (∀ n, n ∈ mapKeys storeStaged._transactions → ∃ v, storeStaged.getPropValue n = Except.ok v) ∧
    ∃ self1, storeStaged.commitTransactions = Except.ok self1 :=
  C3_commitTransactions_never_fails sampleProps storeStaged
    reachable_storeStaged

/-- C4: for every store, name and value, `addPropValueTransaction` leaves the
authoritative map `_values` and the set `_propsWithValues` as they were, so
`getPropValue` and `hasPropValue` answer for every name as before; the same
holds after any sequence of stagings. -/
theorem C4_staging_is_invisible_until_commit (self : JsiDomNodeProps) (name : PropId)
    (value : JsiValue) :
    (self.addPropValueTransaction name value)._values = self._values ∧
    (self.addPropValueTransaction name value)._propsWithValues = self._propsWithValues ∧
    (∀ n, (self.addPropValueTransaction name value).getPropValue n = self.getPropValue n) ∧
    (∀ n, (self.addPropValueTransaction name value).hasPropValue n = self.hasPropValue n) ∧
    (∀ ops n, (stageAll ops self).getPropValue n = self.getPropValue n ∧
      (stageAll ops self).hasPropValue n = self.hasPropValue n) := by
  have h := addPropValueTransaction_frame self name value
  refine ⟨h.1, h.2.1, ?_, ?_, ?_⟩
  · intro n
    simp only [getPropValue, h.1]
  · intro n
    simp only [hasPropValue, h.2.1]
  · intro ops n
    have h2 := stageAll_frame ops self
    simp only [getPropValue, hasPropValue, h2.1, h2.2, and_self]

/-- C5 as stated fails: a fresh store resolves the numeric property `r` bound to
a dynamic value reading 5, the dynamic value notifies once with 7, no commit is
performed, and `getHasPropChanges()` is true. -/
theorem C5_changes_reported_before_commit :
    (JsiDomNodeProps.new sampleProps).tryReadProperty (sampleRuntime (JsiValue.number 5)) "r"
      PropType.Number = Except.ok (JsiValue.number 5, storeSeeded) ∧
    storeSeeded.notify (sampleRuntime (JsiValue.number 7)) (Listener.animated "r" 0)
      = storeStaged ∧
    storeStaged.getHasPropChanges = true :=
  ⟨rfl, rfl, rfl⟩

/-- C5, amended: a fresh store resolves a property bound to a dynamic value and
the dynamic value then notifies once, with no commit: the resolve returns the
snapshot and installs the listener, `getHasPropChanges()` is true after the
resolve and still true after the notification (`requestPropChange` runs when
the value is seeded and when the transaction is staged), and the property
still reads the seeded snapshot. -/
theorem C5_changes_flagged_when_staged (props : List (PropId × JsiValue)) (name : PropId)
    (d : Nat) (type : PropType) (runtime runtime1 : Runtime)
    (hbound : (JsiDomNodeProps.new props).getProperty name
      = JsiValue.hostObject (HostObject.readonlyValue d)) :
    ∃ self1,
      (JsiDomNodeProps.new props).tryReadProperty runtime name type
        = Except.ok (runtime.getCurrent d, self1) ∧
      self1._unsubscriptions = [Listener.animated name d] ∧
      self1.getHasPropChanges = true ∧
      (self1.notify runtime1 (Listener.animated name d)).getHasPropChanges = true ∧
      (self1.notify runtime1 (Listener.animated name d)).getPropValue name
        = Except.ok (runtime.getCurrent d) := by
  obtain ⟨v, h1, h2⟩ :=
    tryReadProperty_animated runtime (JsiDomNodeProps.new props) name type d hbound
  have hi := values_initializePropValue (JsiDomNodeProps.new props) name (runtime.getCurrent d)
  have hv : v = runtime.getCurrent d := by
    rw [hi.1, mapAt_mapEmplace_self _ _ _ (by simp [JsiDomNodeProps.new, mapKeys])] at h2
    exact (Option.some.inj h2).symm
  subst hv
  generalize hs : ({ (JsiDomNodeProps.new props).initializePropValue name (runtime.getCurrent d) with
      _unsubscriptions :=
        ((JsiDomNodeProps.new props).initializePropValue name
          (runtime.getCurrent d))._unsubscriptions ++ [Listener.animated name d] }
      : JsiDomNodeProps) = self1 at h1
  have hU : self1._unsubscriptions = [Listener.animated name d] := by
    rw [← hs]
    show ((JsiDomNodeProps.new props).initializePropValue name
      (runtime.getCurrent d))._unsubscriptions ++ [Listener.animated name d] = _
    rw [hi.2.2.1]
    rfl
  have hP : self1._propChanges = 1 := by
    rw [← hs]
    show ((JsiDomNodeProps.new props).initializePropValue name
      (runtime.getCurrent d))._propChanges = 1
    rw [hi.2.2.2.2.1]
    rfl
  have hV : mapAt self1._values name = some (runtime.getCurrent d) := by
    rw [← hs]
    exact h2
  refine ⟨self1, h1, hU, ?_, ?_, ?_⟩
  · simp [getHasPropChanges, hP]
  · simp only [notify, Listener.invoke, addPropValueTransaction]
    split
    · simp [getHasPropChanges, requestPropChange, hP, SIZE_RANGE]
    · simp [getHasPropChanges, hP]
  · have hf := addPropValueTransaction_frame self1 name (runtime1.getCurrent d)
    simp only [notify, Listener.invoke, getPropValue, hf.1, hV]

/-- Witness of C5 amended: the scenario of the specification, snapshot 5 then a
notification with 7. -/
theorem C5_changes_flagged_when_staged_witness :
    ∃ self1,
      (JsiDomNodeProps.new sampleProps).tryReadProperty (sampleRuntime (JsiValue.number 5)) "r"
        PropType.Number = Except.ok (JsiValue.number 5, self1) ∧
      self1._unsubscriptions = [Listener.animated "r" 0] ∧
      self1.getHasPropChanges = true ∧
      (self1.notify (sampleRuntime (JsiValue.number 7))
        (Listener.animated "r" 0)).getHasPropChanges = true ∧
      (self1.notify (sampleRuntime (JsiValue.number 7)) (Listener.animated "r" 0)).getPropValue "r"
        = Except.ok (JsiValue.number 5) :=
  C5_changes_flagged_when_staged sampleProps "r" 0 PropType.Number
    (sampleRuntime (JsiValue.number 5)) (sampleRuntime (JsiValue.number 7)) rfl

/-- C6: for every store, after `resetPropChanges` the query
`getHasPropChanges()` is false and `getHasPropChanges(name)` is false for every
name, while the values, the names with values and the answers of
`getPropValue` are as before. -/
theorem C6_reset_clears_change_tracking (self : JsiDomNodeProps) :
    self.resetPropChanges.getHasPropChanges = false ∧
    (∀ name, self.resetPropChanges.getHasPropChangesOf name = false) ∧
    self.resetPropChanges._values = self._values ∧
    self.resetPropChanges._propsWithValues = self._propsWithValues ∧
    (∀ name, self.resetPropChanges.getPropValue name = self.getPropValue name) := by
  refine ⟨?_, ?_, rfl, rfl, fun _ => rfl⟩
  · simp [resetPropChanges, getHasPropChanges]
  · intro name
    simp [resetPropChanges, getHasPropChangesOf, setCount]

/-- C9 as stated fails: in the sample store `r` is bound to the dynamic value 0
and was resolved while the snapshot was 5; with the snapshot now 7, resolving
`r` again returns 5 and the store still reads 5 for `r`. -/
theorem C9_resolving_again_keeps_the_first_seed :
    Reachable sampleProps storeSeeded ∧
    storeSeeded.getProperty "r" = JsiValue.hostObject (HostObject.readonlyValue 0) ∧
    (sampleRuntime (JsiValue.number 7)).getCurrent 0 = JsiValue.number 7 ∧
    storeSeeded.tryReadProperty (sampleRuntime (JsiValue.number 7)) "r" PropType.Number
      = Except.ok (JsiValue.number 5, storeResolvedTwice) ∧
    storeResolvedTwice.getPropValue "r" = Except.ok (JsiValue.number 5) ∧
    JsiValue.number 5 ≠ JsiValue.number 7 :=
  ⟨reachable_storeSeeded, rfl, rfl, rfl, rfl, by simp⟩

/-- C9, amended: in a reachable store in which the name has no entry yet (it
was not resolved before), for every dynamic value bound to the name and every
snapshot of it, `tryReadProperty` returns the snapshot, the store reads the
snapshot for the name at once (no commit is involved, the pending transactions
are untouched), the name is marked as having a value exactly when the snapshot
is neither undefined nor null, and exactly one subscription, the listener of
that dynamic value for that name, is appended. -/
theorem C9_dynamic_value_seeds_its_snapshot (props : List (PropId × JsiValue))
    (self : JsiDomNodeProps) (name : PropId) (d : Nat) (type : PropType) (runtime : Runtime)
    (hreach : Reachable props self)
    (hbound : self.getProperty name = JsiValue.hostObject (HostObject.readonlyValue d))
    (hfirst : name ∉ mapKeys self._values) :
    ∃ self1,
      self.tryReadProperty runtime name type = Except.ok (runtime.getCurrent d, self1) ∧
      self1.getPropValue name = Except.ok (runtime.getCurrent d) ∧
      self1._transactions = self._transactions ∧
      self1.hasPropValue name = !(runtime.getCurrent d).isUndefinedOrNull ∧
      self1._unsubscriptions = self._unsubscriptions ++ [Listener.animated name d] := by
  obtain ⟨v, h1, h2⟩ := tryReadProperty_animated runtime self name type d hbound
  have hi := values_initializePropValue self name (runtime.getCurrent d)
  have hv : v = runtime.getCurrent d := by
    rw [hi.1, mapAt_mapEmplace_self _ _ _ hfirst] at h2
    exact (Option.some.inj h2).symm
  subst hv
  have hres := resolved_of_reachable props self hreach
  have hnot : name ∉ self._propsWithValues := fun hmem => hfirst (hres.withValues name hmem)
  refine ⟨_, h1, ?_, hi.2.1, ?_, ?_⟩
  · simp only [getPropValue, h2]
  · show decide (name ∈ (self.initializePropValue name (runtime.getCurrent d))._propsWithValues)
      = !(runtime.getCurrent d).isUndefinedOrNull
    rw [hi.2.2.2.2.2.2]
    cases hn : (runtime.getCurrent d).isUndefinedOrNull
    · simp [mem_setEmplace]
    · simp [hnot]
  · show (self.initializePropValue name (runtime.getCurrent d))._unsubscriptions
      ++ [Listener.animated name d] = _
    rw [hi.2.2.1]

/-- Witness of C9 amended: the scenario of the specification, a fresh store
resolving `r` while its dynamic value reads 5. -/
theorem C9_dynamic_value_seeds_its_snapshot_witness :
    ∃ self1,
      (JsiDomNodeProps.new sampleProps).tryReadProperty (sampleRuntime (JsiValue.number 5)) "r"
        PropType.Number = Except.ok (JsiValue.number 5, self1) ∧
      self1.getPropValue "r" = Except.ok (JsiValue.number 5) ∧
      self1._transactions = [] ∧
      self1.hasPropValue "r" = true ∧
      self1._unsubscriptions = [] ++ [Listener.animated "r" 0] :=
  C9_dynamic_value_seeds_its_snapshot sampleProps (JsiDomNodeProps.new sampleProps) "r" 0
    PropType.Number (sampleRuntime (JsiValue.number 5)) Reachable.init rfl
    (by simp [JsiDomNodeProps.new, mapKeys])

/-- C10 as stated fails, in two ways.  First, the selector of `s` gives null on
the first snapshot (the number 0), so the property is seeded with null; when
the dynamic value then notifies with `{x:3, y:4}` the listener stages nothing,
because the name has no value, and after the commit the property still reads
null, not the result `{x:4, y:3}` of the selector.  Second, in the reachable
store in which `s` was resolved at `{x:1, y:2}`, resolving `s` again while the
dynamic value reads `{x:5, y:6}` returns `{x:2, y:1}`, the first seed, not
`{x:6, y:5}`. -/
theorem C10_null_seed_drops_the_notification :
    ((JsiDomNodeProps.new sampleProps).tryReadProperty (sampleRuntime (JsiValue.number 0)) "s"
        PropType.Object = Except.ok (JsiValue.null, storeNullSeeded) ∧
      (storeNullSeeded.notify (sampleRuntime (pointXY 3 4))
        (Listener.selector "s" 0 1)).commitTransactions = Except.ok storeNullSeeded ∧
      storeNullSeeded.getPropValue "s" = Except.ok JsiValue.null ∧
      (sampleRuntime (pointXY 3 4)).call 0 ((sampleRuntime (pointXY 3 4)).getCurrent 1)
        = pointXY 4 3 ∧
      JsiValue.null ≠ pointXY 4 3) ∧
    (Reachable sampleProps storeSelectorSeeded ∧
      storeSelectorSeeded.tryReadProperty (sampleRuntime (pointXY 5 6)) "s" PropType.Object
        = Except.ok (pointXY 2 1, storeSelectorResolvedTwice) ∧
      (sampleRuntime (pointXY 5 6)).call 0 ((sampleRuntime (pointXY 5 6)).getCurrent 1)
        = pointXY 6 5 ∧
      pointXY 2 1 ≠ pointXY 6 5) :=
  ⟨⟨rfl, rfl, rfl, rfl, by simp [pointXY]⟩,
    ⟨Reachable.read (sampleRuntime (pointXY 1 2)) "s" PropType.Object (pointXY 2 1)
        (Reachable.init : Reachable sampleProps (JsiDomNodeProps.new sampleProps)) rfl,
      rfl, rfl, by simp [pointXY]⟩⟩

/-- C10, amended: in a reachable store in which the name has no entry yet, for
every selector expression made of a function `f` and a dynamic value `d`,
`tryReadProperty` returns the function's result on the current snapshot of `d`
and the store reads it for the name, with one subscription appended; when that
seeded result is neither undefined nor null, after `d` notifies and
`commitTransactions` runs the property reads the function's result on the new
snapshot; when the seeded result is undefined or null the notification stages
nothing. -/
theorem C10_selector_result_is_seeded_and_committed (props : List (PropId × JsiValue))
    (self : JsiDomNodeProps) (name : PropId) (fields : List (PropId × JsiValue)) (f d : Nat)
    (type : PropType) (runtime runtime1 : Runtime)
    (hreach : Reachable props self)
    (hsrc : self.getProperty name = JsiValue.object fields)
    (hsel : fields.lookup PropNameSelector = some (JsiValue.hostFunction f))
    (hval : fields.lookup PropNameValue = some (JsiValue.hostObject (HostObject.readonlyValue d)))
    (hfirst : name ∉ mapKeys self._values) :
    ∃ self1,
      self.tryReadProperty runtime name type
        = Except.ok (runtime.call f (runtime.getCurrent d), self1) ∧
      self1.getPropValue name = Except.ok (runtime.call f (runtime.getCurrent d)) ∧
      self1._unsubscriptions = self._unsubscriptions ++ [Listener.selector name f d] ∧
      ((runtime.call f (runtime.getCurrent d)).isUndefinedOrNull = false →
        ∃ self2,
          (self1.notify runtime1 (Listener.selector name f d)).commitTransactions
            = Except.ok self2 ∧
          self2.getPropValue name = Except.ok (runtime1.call f (runtime1.getCurrent d))) ∧
      ((runtime.call f (runtime.getCurrent d)).isUndefinedOrNull = true →
        self1.notify runtime1 (Listener.selector name f d) = self1) := by
  obtain ⟨v, h1, h2⟩ := tryReadProperty_selector runtime self name type fields f d hsrc hsel hval
  have hi := values_initializePropValue self name (runtime.call f (runtime.getCurrent d))
  have hv : v = runtime.call f (runtime.getCurrent d) := by
    rw [hi.1, mapAt_mapEmplace_self _ _ _ hfirst] at h2
    exact (Option.some.inj h2).symm
  subst hv
  have hres := resolved_of_reachable props self hreach
  have hnot : name ∉ self._propsWithValues := fun hmem => hfirst (hres.withValues name hmem)
  have hnopend : name ∉ mapKeys self._transactions := fun hmem => hfirst (hres.pending name hmem)
  generalize hs : ({ self.initializePropValue name (runtime.call f (runtime.getCurrent d)) with
      _unsubscriptions :=
        (self.initializePropValue name (runtime.call f (runtime.getCurrent d)))._unsubscriptions
          ++ [Listener.selector name f d] } : JsiDomNodeProps) = self1 at h1
  have hU : self1._unsubscriptions = self._unsubscriptions ++ [Listener.selector name f d] := by
    rw [← hs]
    show (self.initializePropValue name (runtime.call f (runtime.getCurrent d)))._unsubscriptions
      ++ [Listener.selector name f d] = _
    rw [hi.2.2.1]
  have hV : mapAt self1._values name = some (runtime.call f (runtime.getCurrent d)) := by
    rw [← hs]
    exact h2
  have hT : self1._transactions = self._transactions := by
    rw [← hs]
    exact hi.2.1
  have hW : self1._propsWithValues
      = if (runtime.call f (runtime.getCurrent d)).isUndefinedOrNull then self._propsWithValues
        else setEmplace self._propsWithValues name := by
    rw [← hs]
    exact hi.2.2.2.2.2.2
  have hres1 : Resolved self1 := by
    have h3 := resolved_initializePropValue self name (runtime.call f (runtime.getCurrent d)) hres
    rw [← hs]
    exact ⟨h3.withValues, h3.pending⟩
  refine ⟨self1, h1, ?_, hU, ?_, ?_⟩
  · simp only [getPropValue, hV]
  · intro hnonnull
    have hhas : self1.hasPropValue name = true := by
      simp [hasPropValue, hW, hnonnull, mem_setEmplace]
    have hstaged : (self1.notify runtime1 (Listener.selector name f d))._transactions
        = self._transactions ++ [(name, runtime1.call f (runtime1.getCurrent d))] := by
      simp only [notify, Listener.invoke, addPropValueTransaction, hhas, if_true,
        requestPropChange, hT]
      exact mapEmplace_of_not_mem _ _ _ hnopend
    exact commit_reads_last_pending _ (resolved_notify runtime1 self1 _ hres1) _ _ _ hstaged
  · intro hnull
    have hhas : self1.hasPropValue name = false := by
      simp [hasPropValue, hW, hnull, hnot]
    simp [notify, Listener.invoke, addPropValueTransaction, hhas]

/-- Witness of C10 amended: the scenario of the specification, "swap x/y" over
a dynamic value that reads `{x:1, y:2}` and then notifies with `{x:3, y:4}`. -/
theorem C10_selector_result_is_seeded_and_committed_witness :
    ∃ self1,
      (JsiDomNodeProps.new sampleProps).tryReadProperty (sampleRuntime (pointXY 1 2)) "s"
        PropType.Object = Except.ok (pointXY 2 1, self1) ∧
      self1.getPropValue "s" = Except.ok (pointXY 2 1) ∧
      self1._unsubscriptions = [] ++ [Listener.selector "s" 0 1] ∧
      ((pointXY 2 1).isUndefinedOrNull = false →
        ∃ self2,
          (self1.notify (sampleRuntime (pointXY 3 4))
            (Listener.selector "s" 0 1)).commitTransactions = Except.ok self2 ∧
          self2.getPropValue "s" = Except.ok (pointXY 4 3)) ∧
      ((pointXY 2 1).isUndefinedOrNull = true →
        self1.notify (sampleRuntime (pointXY 3 4)) (Listener.selector "s" 0 1) = self1) :=
  C10_selector_result_is_seeded_and_committed sampleProps (JsiDomNodeProps.new sampleProps) "s"
    [("selector", JsiValue.hostFunction 0),
     ("value", JsiValue.hostObject (HostObject.readonlyValue 1))]
    0 1 PropType.Object (sampleRuntime (pointXY 1 2)) (sampleRuntime (pointXY 3 4))
    Reachable.init rfl rfl rfl (by simp [JsiDomNodeProps.new, mapKeys])

namespace JsiDomNodeProps

theorem reachable_of_reachableOnce (props : List (PropId × JsiValue)) (self : JsiDomNodeProps)
    (h : ReachableOnce props self) : Reachable props self := by
  induction h with
  | init => exact Reachable.init
  | read runtime name type v _ _ hread ih => exact Reachable.read runtime name type v ih hread
  | notify runtime l _ hl ih => exact Reachable.notify runtime l ih hl
  | commit _ hcommit ih => exact Reachable.commit ih hcommit
  | reset _ ih => exact Reachable.reset ih

theorem mapAt_append_single_of_ne (m : List (PropId × JsiValue)) (k n : PropId) (v : JsiValue)
    (h : n ≠ k) : mapAt (m ++ [(k, v)]) n = mapAt m n := by
  rw [mapAt_append]
  have h1 : mapAt [(k, v)] n = none := by
    rw [mapAt_cons, if_neg h]
    rfl
  rw [h1]
  cases mapAt m n <;> rfl

theorem valuesPresent_new (props : List (PropId × JsiValue)) :
    ValuesPresent (JsiDomNodeProps.new props) := by
  intro n
  simp [JsiDomNodeProps.new, mapAt]

/-- Seeding a name that has no entry and is not marked keeps the invariant. -/
theorem valuesPresent_initializePropValue (self : JsiDomNodeProps) (name : PropId)
    (value : JsiValue) (h : ValuesPresent self) (hfirst : name ∉ mapKeys self._values) :
    ValuesPresent (self.initializePropValue name value) := by
  have hi := values_initializePropValue self name value
  have hnot : name ∉ self._propsWithValues := by
    intro hmem
    obtain ⟨v, hv, _⟩ := (h name).1 hmem
    have hnone := (mapAt_eq_none_iff self._values name).2 hfirst
    rw [hnone] at hv
    exact absurd hv (by simp)
  intro n
  rw [hi.1, hi.2.2.2.2.2.2, mapEmplace_of_not_mem _ _ _ hfirst]
  by_cases hn : n = name
  · subst hn
    have hself : mapAt (self._values ++ [(n, value)]) n = some value := by
      rw [← mapEmplace_of_not_mem _ _ _ hfirst]
      exact mapAt_mapEmplace_self _ _ _ hfirst
    rw [hself]
    cases hv : value.isUndefinedOrNull
    · simp [mem_setEmplace, hv]
    · simp [hnot, hv]
  · rw [mapAt_append_single_of_ne _ _ _ _ hn]
    cases hv : value.isUndefinedOrNull
    · simp only [Bool.false_eq_true, if_false, mem_setEmplace, hn, or_false]
      exact h n
    · simp only [if_true]
      exact h n

theorem valuesPresent_afterEntry (self : JsiDomNodeProps) (el : PropId × JsiValue)
    (h : ValuesPresent self) (hel : el.1 ∈ mapKeys self._values) :
    ValuesPresent (afterEntry self el) := by
  intro n
  rw [mem_propsWithValues_afterEntry]
  have hv : (afterEntry self el)._values = mapSwap self._values el.1 el.2 := rfl
  rw [hv]
  by_cases hn : n = el.1
  · subst hn
    rw [mapAt_mapSwap_self _ _ _ hel]
    constructor
    · rintro (⟨_, h1⟩ | ⟨h1, _⟩)
      · exact ⟨el.2, rfl, h1⟩
      · exact absurd rfl h1
    · rintro ⟨v, h1, h2⟩
      rw [← Option.some.inj h1] at h2
      exact Or.inl ⟨rfl, h2⟩
  · rw [mapAt_mapSwap_of_ne _ _ _ _ hn]
    constructor
    · rintro (⟨h1, _⟩ | ⟨_, h1⟩)
      · exact absurd h1 hn
      · exact (h n).1 h1
    · intro h1
      exact Or.inr ⟨hn, (h n).2 h1⟩

theorem valuesPresent_commitLoop (l : List (PropId × JsiValue)) (self self1 : JsiDomNodeProps)
    (h : ValuesPresent self) (hkeys : ∀ n, n ∈ mapKeys l → n ∈ mapKeys self._values)
    (hloop : commitLoop l self = Except.ok self1) : ValuesPresent self1 := by
  induction l generalizing self with
  | nil =>
    simp only [commitLoop, Except.ok.injEq] at hloop
    rw [← hloop]
    exact h
  | cons el rest ih =>
    have hel : el.1 ∈ mapKeys self._values := hkeys el.1 (by simp [mapKeys])
    simp only [commitLoop, commitEntry_of_mem self el hel] at hloop
    apply ih (afterEntry self el) (valuesPresent_afterEntry self el h hel) _ hloop
    intro n hn
    have h1 : mapKeys (afterEntry self el)._values = mapKeys self._values := by
      simp [afterEntry, mapKeys_mapSwap]
    rw [h1]
    exact hkeys n (by simp only [mapKeys, List.map_cons, List.mem_cons] at hn ⊢; exact Or.inr hn)

theorem valuesPresent_commitTransactions (self self1 : JsiDomNodeProps)
    (h : ValuesPresent self) (hres : Resolved self)
    (hcommit : self.commitTransactions = Except.ok self1) : ValuesPresent self1 := by
  unfold commitTransactions at hcommit
  cases hloop : commitLoop self._transactions self with
  | error e =>
    rw [hloop] at hcommit
    exact absurd hcommit (by simp)
  | ok s1 =>
    rw [hloop] at hcommit
    simp only [Except.ok.injEq] at hcommit
    have h1 := valuesPresent_commitLoop _ self s1 h hres.pending hloop
    rw [← hcommit]
    exact h1

theorem valuesPresent_of_reachableOnce (props : List (PropId × JsiValue))
    (self : JsiDomNodeProps) (h : ReachableOnce props self) : ValuesPresent self := by
  induction h with
  | init => exact valuesPresent_new props
  | read runtime name type v hprev hfirst hread ih =>
    obtain ⟨value, subs, h1, _⟩ := tryReadProperty_ok_shape _ _ _ _ _ _ hread
    have h2 := valuesPresent_initializePropValue _ name value ih hfirst
    rw [h1]
    exact h2
  | @notify s runtime l _ _ ih =>
    have hframe : (s.notify runtime l)._values = s._values ∧
        (s.notify runtime l)._propsWithValues = s._propsWithValues := by
      cases l with
      | animated name animatedValue =>
        have hf := addPropValueTransaction_frame s name (runtime.getCurrent animatedValue)
        exact ⟨hf.1, hf.2.1⟩
      | selector name selectorFn readonlyValue =>
        have hf := addPropValueTransaction_frame s name
          (runtime.call selectorFn (runtime.getCurrent readonlyValue))
        exact ⟨hf.1, hf.2.1⟩
    intro n
    rw [hframe.1, hframe.2]
    exact ih n
  | commit hprev hcommit ih =>
    exact valuesPresent_commitTransactions _ _ ih
      (resolved_of_reachable props _ (reachable_of_reachableOnce props _ hprev)) hcommit
  | reset _ ih => exact ih

end JsiDomNodeProps

/-- C12 as stated fails: resolving `r` while its dynamic value reads null and
then again while it reads 5 reaches a store in which `r` is marked as having a
value (`hasPropValue` is true) while its entry in `_values` is still null: the
second `_values.emplace` keeps the first entry, the second
`_propsWithValues.emplace` adds the name. -/
theorem C12_second_resolve_marks_a_null_entry :
    Reachable sampleProps storeDynamicNullResolvedTwice ∧
    storeDynamicNullResolvedTwice.hasPropValue "r" = true ∧
    storeDynamicNullResolvedTwice.getPropValue "r" = Except.ok JsiValue.null ∧
    JsiValue.null.isUndefinedOrNull = true :=
  ⟨Reachable.read (sampleRuntime (JsiValue.number 5)) "r" PropType.Number JsiValue.null
      (Reachable.read (sampleRuntime JsiValue.null) "r" PropType.Number JsiValue.null
        (Reachable.init : Reachable sampleProps (JsiDomNodeProps.new sampleProps))
        (rfl : (JsiDomNodeProps.new sampleProps).tryReadProperty (sampleRuntime JsiValue.null)
          "r" PropType.Number = Except.ok (JsiValue.null, storeDynamicNull)))
      rfl,
    rfl, rfl, rfl⟩

/-- C12, amended: in every state reachable by resolving names that have no
entry yet (no name is resolved twice), listener notifications, commits and
resets, the names with values, as `hasPropValue` reads them, are exactly the
names whose current value in `_values` is neither undefined nor null. -/
theorem C12_names_with_values_when_resolved_once (props : List (PropId × JsiValue))
    (self : JsiDomNodeProps) (hreach : ReachableOnce props self) :
    ∀ n, self.hasPropValue n = true ↔
      ∃ v, self.getPropValue n = Except.ok v ∧ v.isUndefinedOrNull = false := by
  have hinv := valuesPresent_of_reachableOnce props self hreach
  intro n
  have h1 : self.hasPropValue n = true ↔ n ∈ self._propsWithValues := by
    simp [hasPropValue]
  rw [h1, hinv n]
  constructor
  · rintro ⟨v, hv, hnn⟩
    exact ⟨v, by simp only [getPropValue, hv], hnn⟩
  · rintro ⟨v, hv, hnn⟩
    exact ⟨v, getPropValue_eq_ok self n v hv, hnn⟩

/-- Witness of C12 amended: the sample store after `r` was resolved once at 5
and its dynamic value notified with 7. -/
theorem C12_names_with_values_when_resolved_once_witness :
    (storeStaged.hasPropValue "r" = true ↔
      ∃ v, storeStaged.getPropValue "r" = Except.ok v ∧ v.isUndefinedOrNull = false) ∧
    (storeStaged.hasPropValue "w" = true ↔
      ∃ v, storeStaged.getPropValue "w" = Except.ok v ∧ v.isUndefinedOrNull = false) :=
  have hall := C12_names_with_values_when_resolved_once sampleProps storeStaged
    (ReachableOnce.notify (sampleRuntime (JsiValue.number 7)) (Listener.animated "r" 0)
      (ReachableOnce.read (sampleRuntime (JsiValue.number 5)) "r" PropType.Number
        (JsiValue.number 5)
        (ReachableOnce.init : ReachableOnce sampleProps (JsiDomNodeProps.new sampleProps))
        (by simp [JsiDomNodeProps.new, mapKeys])
        (rfl : (JsiDomNodeProps.new sampleProps).tryReadProperty
          (sampleRuntime (JsiValue.number 5)) "r" PropType.Number
            = Except.ok (JsiValue.number 5, storeSeeded)))
      (by simp [storeSeeded]))
  ⟨hall "r", hall "w"⟩

namespace JsiDomNodeProps

/-- A resolve that returns has appended to `_unsubscriptions` exactly the
cancellation functions it created, and kept the authored object. -/
theorem tryReadProperty_ok_subscriptions (runtime : Runtime) (self self1 : JsiDomNodeProps)
    (name : PropId) (type : PropType) (v : JsiValue)
    (h : self.tryReadProperty runtime name type = Except.ok (v, self1)) :
    self1._unsubscriptions
      = self._unsubscriptions ++ subscriptionsCreated (self.getProperty name) name ∧
    self1._props = self._props := by
  cases hA : isAnimatedValue (self.getProperty name) with
  | true =>
    obtain ⟨d, hd⟩ := isAnimatedValue_eq_true _ hA
    obtain ⟨w, hw, _⟩ := tryReadProperty_animated runtime self name type d hd
    rw [hw] at h
    simp only [Except.ok.injEq, Prod.mk.injEq] at h
    have hi := values_initializePropValue self name (runtime.getCurrent d)
    rw [← h.2]
    refine ⟨?_, hi.2.2.2.1⟩
    show (self.initializePropValue name (runtime.getCurrent d))._unsubscriptions
      ++ [Listener.animated name d] = _
    rw [hi.2.2.1, hd]
    simp [subscriptionsCreated, isAnimatedValue, getAnimatedValue, HostObject.asReadonlyValue]
  | false =>
    cases hS : isSelector (self.getProperty name) with
    | false =>
      rw [tryReadProperty_plain runtime self name type hA hS] at h
      have hi := values_initializePropValue self name (self.getProperty name)
      split at h
      · exact absurd h (by simp)
      · split at h
        · exact absurd h (by simp)
        · simp only [Except.ok.injEq, Prod.mk.injEq] at h
          rw [← h.2]
          refine ⟨?_, hi.2.2.2.1⟩
          rw [hi.2.2.1]
          simp [subscriptionsCreated, hA, hS]
    | true =>
      unfold tryReadProperty at h
      simp only [hA, hS, Bool.false_eq_true, if_false, if_true] at h
      unfold subscriptionsCreated
      simp only [hA, hS, Bool.false_eq_true, if_false, if_true]
      cases h1 : (self.getProperty name).getValue PropNameValue with
      | error e => simp only [h1] at h; exact absurd h (by simp)
      | ok valueField =>
        simp only [h1] at h ⊢
        cases h2 : valueField.getAsHostObject with
        | error e => simp only [h2] at h; exact absurd h (by simp)
        | ok valueHandle =>
          simp only [h2] at h ⊢
          cases h3 : (self.getProperty name).getValue PropNameSelector with
          | error e => simp only [h3] at h; exact absurd h (by simp)
          | ok selectorField =>
            simp only [h3] at h ⊢
            cases h4 : selectorField.getAsFunction with
            | error e => simp only [h4] at h; exact absurd h (by simp)
            | ok selectorFn =>
              simp only [h4] at h ⊢
              cases h5 : valueHandle.asReadonlyValue with
              | none => simp only [h5] at h; exact absurd h (by simp)
              | some readonlyValue =>
                simp only [h5] at h ⊢
                have hi := values_initializePropValue self name
                  (runtime.call selectorFn (runtime.getCurrent readonlyValue))
                split at h
                · exact absurd h (by simp)
                · simp only [Except.ok.injEq, Prod.mk.injEq] at h
                  rw [← h.2]
                  refine ⟨?_, hi.2.2.2.1⟩
                  show (self.initializePropValue name
                    (runtime.call selectorFn (runtime.getCurrent readonlyValue)))._unsubscriptions
                    ++ [Listener.selector name selectorFn readonlyValue] = _
                  rw [hi.2.2.1]

/-- A resolve that raises has created no cancellation function. -/
theorem tryReadProperty_error_subscriptions (runtime : Runtime) (self : JsiDomNodeProps)
    (name : PropId) (type : PropType) (e : Error)
    (h : self.tryReadProperty runtime name type = Except.error e) :
    subscriptionsCreated (self.getProperty name) name = [] := by
  cases hA : isAnimatedValue (self.getProperty name) with
  | true =>
    obtain ⟨d, hd⟩ := isAnimatedValue_eq_true _ hA
    obtain ⟨w, hw, _⟩ := tryReadProperty_animated runtime self name type d hd
    rw [hw] at h
    exact absurd h (by simp)
  | false =>
    cases hS : isSelector (self.getProperty name) with
    | false => simp [subscriptionsCreated, hA, hS]
    | true =>
      unfold tryReadProperty at h
      simp only [hA, hS, Bool.false_eq_true, if_false, if_true] at h
      unfold subscriptionsCreated
      simp only [hA, hS, Bool.false_eq_true, if_false, if_true]
      cases h1 : (self.getProperty name).getValue PropNameValue with
      | error e1 => rfl
      | ok valueField =>
        simp only [h1] at h ⊢
        cases h2 : valueField.getAsHostObject with
        | error e2 => rfl
        | ok valueHandle =>
          simp only [h2] at h ⊢
          cases h3 : (self.getProperty name).getValue PropNameSelector with
          | error e3 => rfl
          | ok selectorField =>
            simp only [h3] at h ⊢
            cases h4 : selectorField.getAsFunction with
            | error e4 => rfl
            | ok selectorFn =>
              simp only [h4] at h ⊢
              cases h5 : valueHandle.asReadonlyValue with
              | none => rfl
              | some readonlyValue =>
                simp only [h5] at h
                exfalso
                obtain ⟨w, _, hw⟩ := getPropValue_of_mem
                  { self.initializePropValue name
                      (runtime.call selectorFn (runtime.getCurrent readonlyValue)) with
                    _unsubscriptions :=
                      (self.initializePropValue name
                        (runtime.call selectorFn
                          (runtime.getCurrent readonlyValue)))._unsubscriptions
                        ++ [Listener.selector name selectorFn readonlyValue] } name
                  (mem_mapKeys_initializePropValue self name _)
                rw [hw] at h
                exact absurd h (by simp)

theorem resolveAll_subscriptions (props : List (PropId × JsiValue))
    (reads : List (Runtime × PropId × PropType)) (self : JsiDomNodeProps)
    (hprops : self._props = props) :
    (resolveAll reads self)._unsubscriptions
      = self._unsubscriptions ++ subscriptionsCreatedAll props reads := by
  induction reads generalizing self with
  | nil => simp [resolveAll, subscriptionsCreatedAll]
  | cons r rest ih =>
    obtain ⟨runtime, name, type⟩ := r
    have hsrc : (JsiDomNodeProps.new props).getProperty name = self.getProperty name := by
      simp [getProperty, JsiDomNodeProps.new, hprops]
    simp only [resolveAll, subscriptionsCreatedAll, hsrc]
    cases hread : self.tryReadProperty runtime name type with
    | error e =>
      simp only
      rw [ih self hprops, tryReadProperty_error_subscriptions runtime self name type e hread]
      simp
    | ok r1 =>
      obtain ⟨v, self1⟩ := r1
      simp only
      have hstep := tryReadProperty_ok_subscriptions runtime self self1 name type v hread
      rw [ih self1 (hstep.2.trans hprops), hstep.1, List.append_assoc]

theorem unsubscribeTimes_of_empty (k : Nat) (self : JsiDomNodeProps)
    (h : self._unsubscriptions = []) :
    (unsubscribeTimes k self).1 = [] ∧ (unsubscribeTimes k self).2._unsubscriptions = [] := by
  induction k generalizing self with
  | zero => exact ⟨rfl, h⟩
  | succ k ih =>
    have h1 := ih self.unsubscribe.2 rfl
    simp only [unsubscribeTimes, unsubscribe, h, List.nil_append]
    exact h1

/-- Any number of calls of `unsubscribe` followed by the destructor invoke the
cancellation functions the store holds, each once, in order. -/
theorem unsubscribeTimes_then_destructor (k : Nat) (self : JsiDomNodeProps) :
    (unsubscribeTimes k self).1 ++ destructor (unsubscribeTimes k self).2
      = self._unsubscriptions := by
  cases k with
  | zero => simp [unsubscribeTimes, destructor, unsubscribe]
  | succ k =>
    have h1 := unsubscribeTimes_of_empty k self.unsubscribe.2 rfl
    simp only [unsubscribeTimes, destructor]
    have h2 : (unsubscribeTimes k self.unsubscribe.2).2.unsubscribe.1 = [] := h1.2
    rw [h1.1, h2]
    simp [unsubscribe]

end JsiDomNodeProps

/-- C13: over any sequence of `tryReadProperty` calls on a fresh store, the
store holds exactly the cancellation functions that `addListener` returned, in
order of creation; any number of `unsubscribe` calls followed by the
destruction of the store invoke exactly that list, so each cancellation
function is invoked once (two resolves of one name create two functions, and
the list counts both); and `unsubscribe` is idempotent: on every store the
first call invokes the whole list and empties it, a second call invokes
nothing and leaves the list empty. -/
theorem C13_each_subscription_released_once (props : List (PropId × JsiValue))
    (reads : List (Runtime × PropId × PropType)) (k : Nat) :
    (resolveAll reads (JsiDomNodeProps.new props))._unsubscriptions
      = subscriptionsCreatedAll props reads ∧
    (unsubscribeTimes k (resolveAll reads (JsiDomNodeProps.new props))).1
        ++ destructor (unsubscribeTimes k (resolveAll reads (JsiDomNodeProps.new props))).2
      = subscriptionsCreatedAll props reads ∧
    (∀ self : JsiDomNodeProps,
      self.unsubscribe.1 = self._unsubscriptions ∧
      self.unsubscribe.2._unsubscriptions = [] ∧
      self.unsubscribe.2.unsubscribe.1 = [] ∧
      self.unsubscribe.2.unsubscribe.2._unsubscriptions = []) := by
  have hall := resolveAll_subscriptions props reads (JsiDomNodeProps.new props) rfl
  have hall1 : (resolveAll reads (JsiDomNodeProps.new props))._unsubscriptions
      = subscriptionsCreatedAll props reads := by
    rw [hall]
    rfl
  refine ⟨hall1, ?_, ?_⟩
  · rw [unsubscribeTimes_then_destructor, hall1]
  · intro self
    exact ⟨rfl, rfl, rfl, rfl⟩

/-- Witness of C13: the sample object resolved at `r`, `w` and `s`, then two
calls of `unsubscribe` and the destructor: the listener of `r` and the listener
of `s` are each invoked once. -/
theorem C13_each_subscription_released_once_witness :
    subscriptionsCreatedAll sampleProps sampleReads
      = [Listener.animated "r" 0, Listener.selector "s" 0 1] ∧
    (unsubscribeTimes 2 (resolveAll sampleReads (JsiDomNodeProps.new sampleProps))).1
        ++ destructor
          (unsubscribeTimes 2 (resolveAll sampleReads (JsiDomNodeProps.new sampleProps))).2
      = [Listener.animated "r" 0, Listener.selector "s" 0 1] :=
  ⟨rfl, (C13_each_subscription_released_once sampleProps sampleReads 2).2.1⟩

namespace JsiDomNodeProps

theorem isSelector_iff (value : JsiValue) :
    isSelector value = true ↔
      ∃ fields, value = JsiValue.object fields ∧
        (fields.lookup PropNameSelector).isSome = true ∧
        (fields.lookup PropNameValue).isSome = true := by
  cases value with
  | object fields =>
    simp [isSelector, JsiValue.getType, JsiValue.hasValue]
  | undefined => simp [isSelector, JsiValue.getType]
  | null => simp [isSelector, JsiValue.getType]
  | bool b => simp [isSelector, JsiValue.getType]
  | number n => simp [isSelector, JsiValue.getType]
  | string s => simp [isSelector, JsiValue.getType]
  | hostObject h => simp [isSelector, JsiValue.getType]
  | hostFunction f => simp [isSelector, JsiValue.getType]
  | array items => simp [isSelector, JsiValue.getType]

/-- On a plain value `tryReadProperty` raises the type mismatch exactly under
the guard of the plain branch. -/
theorem tryReadProperty_plain_error_iff (runtime : Runtime) (self : JsiDomNodeProps)
    (name : PropId) (type : PropType)
    (hA : isAnimatedValue (self.getProperty name) = false)
    (hS : isSelector (self.getProperty name) = false) :
    self.tryReadProperty runtime name type
        = Except.error (Error.TypeMismatch type (self.getProperty name).getType name) ↔
      ((self.getProperty name).getType ≠ type ∧
        (self.getProperty name).isUndefinedOrNull = false) := by
  have hplain := tryReadProperty_plain runtime self name type hA hS
  obtain ⟨v, _, hv⟩ := getPropValue_of_mem (self.initializePropValue name (self.getProperty name))
    name (mem_mapKeys_initializePropValue self name _)
  constructor
  · intro herr
    by_contra hc
    rw [hplain, if_neg hc, hv] at herr
    exact absurd herr (by simp)
  · intro hc
    rw [hplain, if_pos hc]

end JsiDomNodeProps

/-- C14: a listener that runs when the weak back-reference no longer resolves
(`weakSelf.lock()` gives the null pointer, as after the destruction of the
store) is a no-op, for the dynamic-value listener and for the selector
listener alike: no store results, so no transaction is staged and no name is
marked as changed, and the runtime is not used, so the snapshot is not read
and the selector function is not invoked.  On a live store the same listener
stages through `addPropValueTransaction`. -/
theorem C14_notification_after_destruction_is_a_no_op (runtime : Runtime) (name : PropId)
    (selectorFn d : Nat) :
    (Listener.animated name d).invoke runtime none = none ∧
    (Listener.animated name d).runtimeUses runtime none = [] ∧
    (Listener.selector name selectorFn d).invoke runtime none = none ∧
    (Listener.selector name selectorFn d).runtimeUses runtime none = [] ∧
    (∀ self : JsiDomNodeProps,
      (Listener.animated name d).invoke runtime (some self)
        = some (self.addPropValueTransaction name (runtime.getCurrent d)) ∧
      (Listener.selector name selectorFn d).invoke runtime (some self)
        = some (self.addPropValueTransaction name
            (runtime.call selectorFn (runtime.getCurrent d))) ∧
      (Listener.selector name selectorFn d).runtimeUses runtime (some self)
        = [RuntimeUse.getCurrent d, RuntimeUse.call selectorFn (runtime.getCurrent d)]) :=
  ⟨rfl, rfl, rfl, rfl, fun _ => ⟨rfl, rfl, rfl⟩⟩

/-- C15 as stated fails: the property `e` is an object with the fields
`selector`, `value` and `extra`, three fields and not two, and it is not a
dynamic value; resolved at the declared type `Number` it is not type-checked as
a plain value (its run-time type is `Object`) but resolved as a selector
expression: the result is the selector applied to the snapshot and a selector
listener is installed. -/
theorem C15_object_with_further_fields_is_a_selector :
    (JsiDomNodeProps.new samplePropsExtra).getProperty "e"
      = JsiValue.object
          [("selector", JsiValue.hostFunction 0),
           ("value", JsiValue.hostObject (HostObject.readonlyValue 1)),
           ("extra", JsiValue.number 1)] ∧
    isAnimatedValue ((JsiDomNodeProps.new samplePropsExtra).getProperty "e") = false ∧
    isSelector ((JsiDomNodeProps.new samplePropsExtra).getProperty "e") = true ∧
    ((JsiDomNodeProps.new samplePropsExtra).getProperty "e").getType ≠ PropType.Number ∧
    (JsiDomNodeProps.new samplePropsExtra).tryReadProperty (sampleRuntime (pointXY 1 2)) "e"
      PropType.Number = Except.ok (pointXY 2 1, storeExtraSeeded) ∧
    storeExtraSeeded._unsubscriptions = [Listener.selector "e" 0 1] :=
  ⟨rfl, rfl, rfl, by decide, rfl, rfl⟩

/-- C15, amended: a source value that is not a dynamic value is treated as a
selector expression if and only if it is an object that has both fields
`selector` and `value`, whatever further fields it has.  A value so classified
is never type-checked, and when its two fields are a function and a dynamic
value the resolve seeds the function's result and installs the selector
listener; every other value is resolved as a plain value: it is type-checked
and no listener is installed. -/
theorem C15_selector_has_both_fields (runtime : Runtime) (self : JsiDomNodeProps)
    (name : PropId) (type : PropType)
    (hA : isAnimatedValue (self.getProperty name) = false) :
    (isSelector (self.getProperty name) = true ↔
      ∃ fields, self.getProperty name = JsiValue.object fields ∧
        (fields.lookup PropNameSelector).isSome = true ∧
        (fields.lookup PropNameValue).isSome = true) ∧
    (isSelector (self.getProperty name) = true →
      (∀ expected got n, self.tryReadProperty runtime name type
        ≠ Except.error (Error.TypeMismatch expected got n)) ∧
      (∀ fields f d, self.getProperty name = JsiValue.object fields →
        fields.lookup PropNameSelector = some (JsiValue.hostFunction f) →
        fields.lookup PropNameValue
          = some (JsiValue.hostObject (HostObject.readonlyValue d)) →
        ∃ v, self.tryReadProperty runtime name type = Except.ok (v,
          { self.initializePropValue name (runtime.call f (runtime.getCurrent d)) with
            _unsubscriptions :=
              (self.initializePropValue name
                (runtime.call f (runtime.getCurrent d)))._unsubscriptions
                ++ [Listener.selector name f d] }))) ∧
    (isSelector (self.getProperty name) = false →
      (self.tryReadProperty runtime name type
          = Except.error (Error.TypeMismatch type (self.getProperty name).getType name) ↔
        ((self.getProperty name).getType ≠ type ∧
          (self.getProperty name).isUndefinedOrNull = false)) ∧
      (∀ v self1, self.tryReadProperty runtime name type = Except.ok (v, self1) →
        self1._unsubscriptions = self._unsubscriptions)) := by
  refine ⟨isSelector_iff _, ?_, ?_⟩
  · intro hS
    refine ⟨?_, ?_⟩
    · intro expected got n herr
      have h := typeMismatch_only_plain runtime self name type expected got n herr
      rw [h.2] at hS
      exact absurd hS (by simp)
    · intro fields f d hobj hsel hval
      obtain ⟨v, hv, _⟩ :=
        tryReadProperty_selector runtime self name type fields f d hobj hsel hval
      exact ⟨v, hv⟩
  · intro hS
    refine ⟨tryReadProperty_plain_error_iff runtime self name type hA hS, ?_⟩
    intro v self1 hok
    have h := (tryReadProperty_ok_subscriptions runtime self self1 name type v hok).1
    rw [h]
    simp [subscriptionsCreated, hA, hS]

/-- Witness of C15 amended: the object `e` with three fields, resolved at the
declared type `Number`: it has both fields, it is never answered with the
type-mismatch error, and the resolve seeds the result of the selector and
installs the selector listener. -/
theorem C15_selector_has_both_fields_witness :
    (isSelector ((JsiDomNodeProps.new samplePropsExtra).getProperty "e") = true ↔
      ∃ fields, (JsiDomNodeProps.new samplePropsExtra).getProperty "e"
          = JsiValue.object fields ∧
        (fields.lookup PropNameSelector).isSome = true ∧
        (fields.lookup PropNameValue).isSome = true) ∧
    (∀ expected got n,
      (JsiDomNodeProps.new samplePropsExtra).tryReadProperty (sampleRuntime (pointXY 1 2)) "e"
        PropType.Number ≠ Except.error (Error.TypeMismatch expected got n)) ∧
    (∃ v, (JsiDomNodeProps.new samplePropsExtra).tryReadProperty (sampleRuntime (pointXY 1 2))
        "e" PropType.Number = Except.ok (v, storeExtraSeeded)) :=
  have h := C15_selector_has_both_fields (sampleRuntime (pointXY 1 2))
    (JsiDomNodeProps.new samplePropsExtra) "e" PropType.Number rfl
  ⟨h.1, (h.2.1 rfl).1,
    (h.2.1 rfl).2
      [("selector", JsiValue.hostFunction 0),
       ("value", JsiValue.hostObject (HostObject.readonlyValue 1)),
       ("extra", JsiValue.number 1)] 0 1 rfl rfl rfl⟩

/-- C16, on the code: in the sample store `r` is among the changed names;
`getHasPropChanges("r")` returns true, the call leaves the store as it was (the
flag is not cleared), and an immediately following `getHasPropChanges("r")`
returns true again, not false.  The comment of the method says that it also
clears the flag; its body does not. -/
theorem C16_query_does_not_clear_the_flag :
    Reachable sampleProps storeSeeded ∧
    (storeSeeded.queryPropChanges "r").1 = true ∧
    (storeSeeded.queryPropChanges "r").2 = storeSeeded ∧
    ((storeSeeded.queryPropChanges "r").2.queryPropChanges "r").1 = true ∧
    (∀ (self : JsiDomNodeProps) (name : PropId),
      (self.queryPropChanges name).1 = true →
      ((self.queryPropChanges name).2.queryPropChanges name).1 = true) :=
  ⟨reachable_storeSeeded, rfl, rfl, rfl, fun _ _ h => h⟩

/-- C17, on the code: `getFilterModeFromString` returns a mode for each of
"nearest", "linear" and "last", and `getMipmapModeFromString` returns a mode
for "none" and "last", but it raises for "nearest" and for "linear": its three
first tests all compare with "last".  An image shader node whose `mm` is
"linear" therefore raises when `materialize` builds the sampling options. -/
theorem C17_mipmap_mode_nearest_and_linear_raise :
    JsiImageShaderNode.getFilterModeFromString "nearest" = Except.ok SkFilterMode.kNearest ∧
    JsiImageShaderNode.getFilterModeFromString "linear" = Except.ok SkFilterMode.kLinear ∧
    JsiImageShaderNode.getFilterModeFromString "last" = Except.ok SkFilterMode.kLast ∧
    JsiImageShaderNode.getMipmapModeFromString "none" = Except.ok SkMipmapMode.kNone ∧
    JsiImageShaderNode.getMipmapModeFromString "last" = Except.ok SkMipmapMode.kLast ∧
    JsiImageShaderNode.getMipmapModeFromString "nearest"
      = Except.error (ShaderError.notAMipmapMode "nearest") ∧
    JsiImageShaderNode.getMipmapModeFromString "linear"
      = Except.error (ShaderError.notAMipmapMode "linear") ∧
    JsiImageShaderNode.samplingOptions "linear" "linear"
      = Except.error (ShaderError.notAMipmapMode "linear") :=
  ⟨rfl, rfl, rfl, rfl, rfl, rfl, rfl, rfl⟩

/-- C18, on the code: for every container and whatever the base class of all
declaration nodes defines, after `defineProperties` the linear gradient node
has assigned every handle its `materialize` dereferences, and `materialize`
reads them all; the radial gradient node has assigned `_centerProp` and
`_radiusProp` only: `_colorsProp`, `_positions`, `_modeProp`, `_flagsProp` and
`_transformsProps` are unassigned, because its `defineProperties` does not call
`JsiBaseGradientNode::defineProperties`, and its `materialize` dereferences the
unassigned `_colorsProp` first. -/
theorem C18_radial_gradient_leaves_base_handles_unassigned
    (baseDefine : NodePropsContainer → NodePropsContainer) (container : NodePropsContainer) :
    JsiLinearGradientNode.materialize true
        (JsiLinearGradientNode.defineProperties baseDefine JsiLinearGradientNode.new container).1
      = Except.ok
        [(baseDefine container)._properties.length + 1,
         (baseDefine container)._properties.length + 5,
         (baseDefine container)._properties.length + 6,
         (baseDefine container)._properties.length + 2,
         (baseDefine container)._properties.length + 3,
         (baseDefine container)._properties.length + 4,
         (baseDefine container)._properties.length] ∧
    (JsiRadialGradientNode.defineProperties baseDefine JsiRadialGradientNode.new
        container).1._centerProp = some (baseDefine container)._properties.length ∧
    (JsiRadialGradientNode.defineProperties baseDefine JsiRadialGradientNode.new
        container).1._radiusProp = some ((baseDefine container)._properties.length + 1) ∧
    (JsiRadialGradientNode.defineProperties baseDefine JsiRadialGradientNode.new
        container).1._colorsProp = none ∧
    (JsiRadialGradientNode.defineProperties baseDefine JsiRadialGradientNode.new
        container).1._positions = none ∧
    (JsiRadialGradientNode.defineProperties baseDefine JsiRadialGradientNode.new
        container).1._modeProp = none ∧
    (JsiRadialGradientNode.defineProperties baseDefine JsiRadialGradientNode.new
        container).1._flagsProp = none ∧
    (JsiRadialGradientNode.defineProperties baseDefine JsiRadialGradientNode.new
        container).1._transformsProps = none ∧
    JsiRadialGradientNode.materialize true
        (JsiRadialGradientNode.defineProperties baseDefine JsiRadialGradientNode.new container).1
      = Except.error (ShaderError.unassignedHandle "_colorsProp") := by
  refine ⟨?_, ?_, ?_, rfl, rfl, rfl, rfl, rfl, rfl⟩
  · simp [JsiLinearGradientNode.materialize, JsiLinearGradientNode.defineProperties,
      JsiBaseGradientNode.defineProperties, NodePropsContainer.defineProperty,
      NodePropsContainer.require, derefHandle, bind, Except.bind, pure, Except.pure]
  · rfl
  · simp [JsiRadialGradientNode.defineProperties, NodePropsContainer.defineProperty]

namespace BezierProp

theorem cornerPoint_of_get (processValue : JsiValue → Except Error SkPoint)
    (arr : List JsiValue) (index : Nat) (name : PropId) (corner : JsiValue) (p : SkPoint)
    (hget : arr[index]? = some corner)
    (hpoint : pointOfCorner processValue corner name = Except.ok p) :
    cornerPoint processValue arr index name = Except.ok p := by
  simp only [cornerPoint, arrayAt, hget, hpoint]

end BezierProp

/-- C19: when the value of the property is an array whose first four items are
corner objects (each of `pos`, `c1` and `c2` is a field that
`PointProp::processValue` converts to a point), `updateDerivedValue` returns
and sets the derived value to exactly 12 points: for `i` from 0 to 3, point
`3i` is `corner[i].pos`, point `3i+1` is `corner[i].c2` and point `3i+2` is
`corner[(i+1) mod 4].c1`, so that the list starts at `corner[0].pos` and ends
at `corner[0].c1`; the items after the fourth play no part; and when the value
is not an array the property, with its cached derived value, is left as it
was. -/
theorem C19_bezier_patch_outline (processValue : JsiValue → Except Error SkPoint)
    (self : BezierProp) (corner : Nat → JsiValue) (rest : List JsiValue)
    (pos c1 c2 : Nat → SkPoint)
    (harr : self._bezierProp
      = JsiValue.array (corner 0 :: corner 1 :: corner 2 :: corner 3 :: rest))
    (hpos : ∀ i, i < 4 → BezierProp.pointOfCorner processValue (corner i) "pos"
      = Except.ok (pos i))
    (hc1 : ∀ i, i < 4 → BezierProp.pointOfCorner processValue (corner i) "c1"
      = Except.ok (c1 i))
    (hc2 : ∀ i, i < 4 → BezierProp.pointOfCorner processValue (corner i) "c2"
      = Except.ok (c2 i)) :
    self.updateDerivedValue processValue
      = Except.ok { self with
          _derivedValue := some
            [pos 0, c2 0, c1 1, pos 1, c2 1, c1 2, pos 2, c2 2, c1 3, pos 3, c2 3, c1 0] } ∧
    [pos 0, c2 0, c1 1, pos 1, c2 1, c1 2, pos 2, c2 2, c1 3, pos 3, c2 3, c1 0].length = 12 ∧
    (∀ i, i < 4 →
      [pos 0, c2 0, c1 1, pos 1, c2 1, c1 2, pos 2, c2 2, c1 3, pos 3, c2 3, c1 0][3 * i]?
        = some (pos i) ∧
      [pos 0, c2 0, c1 1, pos 1, c2 1, c1 2, pos 2, c2 2, c1 3, pos 3, c2 3, c1 0][3 * i + 1]?
        = some (c2 i) ∧
      [pos 0, c2 0, c1 1, pos 1, c2 1, c1 2, pos 2, c2 2, c1 3, pos 3, c2 3, c1 0][3 * i + 2]?
        = some (c1 ((i + 1) % 4))) ∧
    (∀ other : BezierProp, other._bezierProp.getType ≠ PropType.Array →
      other.updateDerivedValue processValue = Except.ok other) := by
  refine ⟨?_, rfl, ?_, ?_⟩
  · have g0 : (corner 0 :: corner 1 :: corner 2 :: corner 3 :: rest)[0]? = some (corner 0) := by simp
    have g1 : (corner 0 :: corner 1 :: corner 2 :: corner 3 :: rest)[1]? = some (corner 1) := by simp
    have g2 : (corner 0 :: corner 1 :: corner 2 :: corner 3 :: rest)[2]? = some (corner 2) := by simp
    have g3 : (corner 0 :: corner 1 :: corner 2 :: corner 3 :: rest)[3]? = some (corner 3) := by simp
    unfold BezierProp.updateDerivedValue
    rw [harr]
    simp only [JsiValue.getType, JsiValue.getAsArray, if_true]
    rw [BezierProp.cornerPoint_of_get processValue _ 0 "pos" _ _ g0 (hpos 0 (by decide)),
      BezierProp.cornerPoint_of_get processValue _ 0 "c2" _ _ g0 (hc2 0 (by decide)),
      BezierProp.cornerPoint_of_get processValue _ 0 "c1" _ _ g0 (hc1 0 (by decide)),
      BezierProp.cornerPoint_of_get processValue _ 1 "pos" _ _ g1 (hpos 1 (by decide)),
      BezierProp.cornerPoint_of_get processValue _ 1 "c2" _ _ g1 (hc2 1 (by decide)),
      BezierProp.cornerPoint_of_get processValue _ 1 "c1" _ _ g1 (hc1 1 (by decide)),
      BezierProp.cornerPoint_of_get processValue _ 2 "pos" _ _ g2 (hpos 2 (by decide)),
      BezierProp.cornerPoint_of_get processValue _ 2 "c2" _ _ g2 (hc2 2 (by decide)),
      BezierProp.cornerPoint_of_get processValue _ 2 "c1" _ _ g2 (hc1 2 (by decide)),
      BezierProp.cornerPoint_of_get processValue _ 3 "pos" _ _ g3 (hpos 3 (by decide)),
      BezierProp.cornerPoint_of_get processValue _ 3 "c2" _ _ g3 (hc2 3 (by decide)),
      BezierProp.cornerPoint_of_get processValue _ 3 "c1" _ _ g3 (hc1 3 (by decide))]
    rfl
  · intro i hi
    have h4 : i = 0 ∨ i = 1 ∨ i = 2 ∨ i = 3 := by omega
    rcases h4 with h | h | h | h <;> subst h <;> exact ⟨rfl, rfl, rfl⟩
  · intro other hother
    unfold BezierProp.updateDerivedValue
    rw [if_neg hother]

/-- Witness of C19: five sample corner objects; the fifth plays no part. -/
theorem C19_bezier_patch_outline_witness :
    sampleBezier.updateDerivedValue samplePointOf
      = Except.ok { sampleBezier with
          _derivedValue := some
            [SkPoint.mk 0 0, SkPoint.mk 0 2, SkPoint.mk 10 1,
             SkPoint.mk 10 0, SkPoint.mk 10 2, SkPoint.mk 20 1,
             SkPoint.mk 20 0, SkPoint.mk 20 2, SkPoint.mk 30 1,
             SkPoint.mk 30 0, SkPoint.mk 30 2, SkPoint.mk 0 1] } :=
  (C19_bezier_patch_outline samplePointOf sampleBezier sampleCorner [sampleCorner 4]
    (fun i => SkPoint.mk (10 * i) 0) (fun i => SkPoint.mk (10 * i) 1)
    (fun i => SkPoint.mk (10 * i) 2) rfl (fun _ _ => rfl) (fun _ _ => rfl)
    (fun _ _ => rfl)).1

end RNSkia
